import Mathlib

/-!
# Verification of the ML-service asynchronous job engine

Shallow embedding of `src/ml-service/app/services/{training,prediction,validation}_service.py`
(repository `kiran2046/ABB`) and proofs about its job state machine, progress
reporting, batch chunking, model comparison, model cache and result payloads.

Modelling conventions:
* Job statuses are the literal Python strings (`"queued"`, `"training"`, `"running"`, ...).
* Progress percentages and metric values are rationals (`ℚ`); the Python floats
  involved are exact small decimals, so no rounding behaviour is lost.
* `datetime.now()` is an abstract clock: every applied action ticks a natural-number
  counter which is used as the timestamp.
* External collaborators (pandas, sklearn estimators, joblib, the filesystem) are an
  explicit environment record: each fallible collaborator call is a `Bool` / `Option String`
  field (`none` = the call succeeds, `some msg` = it raises an exception whose
  `str()` is `msg`), and each value produced by a collaborator is an environment field.
* A worker execution is the list of its registry effects (plus inert event markers
  such as "the dataset was read"), and a run interleaves that list with arbitrarily
  many `cancel` requests, mirroring the lock-protected single-writer discipline of
  the Python services.
-/

set_option maxHeartbeats 1000000
set_option linter.unusedVariables false

/-- A metrics dictionary (`Dict[str, float]` in the source), as an association list. -/
abbrev Metrics := List (String × ℚ)

namespace TrainingService

/-- Mirror of the pydantic model `TrainingStatus`
(`app/models/training_models.py`): the per-job registry record. -/
structure TrainingStatus where
  job_id : String
  status : String
  progress : ℚ
  metrics : Option Metrics := none
  error_message : Option String := none
  started_at : Option ℕ := none
  completed_at : Option ℕ := none
  model_path : Option String := none
  deriving Repr, DecidableEq

/-- Mirror of the pydantic model `TrainingRequest`.  `algorithm` is the string
value of the `TrainingAlgorithm` str-enum; `hyperparameters` is kept abstract
(it is only forwarded to the estimator constructors). -/
structure TrainingRequest where
  dataset_id : String
  algorithm : String
  target_column : String
  feature_columns : List String
  test_size : ℚ := 2/10
  random_state : ℤ := 42
  deriving Repr, DecidableEq

/-- The estimator kinds `_create_model` can construct. -/
inductive EstimatorKind where
  | xgboost
  | lightgbm
  | randomForest
  | gradientBoosting
  | linearRegression
  deriving Repr, DecidableEq

/-- Mirror of `TrainingService._create_model`: the `if/elif` chain on the
algorithm identifier; the final `else` raises
`ValueError(f"Unsupported algorithm: {algorithm}")`.  The concrete sklearn /
xgboost / lightgbm constructors are opaque collaborators, so only the selected
estimator kind is retained. -/
def createModel (algorithm : String) : Except String EstimatorKind :=
  if algorithm = "xgboost" then .ok .xgboost
  else if algorithm = "lightgbm" then .ok .lightgbm
  else if algorithm = "random_forest" then .ok .randomForest
  else if algorithm = "gradient_boosting" then .ok .gradientBoosting
  else if algorithm = "linear_regression" then .ok .linearRegression
  else .error ("Unsupported algorithm: " ++ algorithm)

/-- The five members of the `TrainingAlgorithm` enum. -/
def supportedAlgorithms : List String :=
  ["xgboost", "lightgbm", "random_forest", "gradient_boosting", "linear_regression"]

/-- Environment of external collaborators for one `_train_model` execution.
Each `Option String` field is `none` when the corresponding collaborator call
succeeds and `some msg` when it raises an exception rendered as `msg`. -/
structure TrainEnv where
  /-- `os.path.exists(dataset_path)` -/
  datasetExists : Bool
  /-- `pd.read_csv` -/
  readError : Option String := none
  /-- selecting `df[feature_columns]` / `df[target_column]` -/
  columnError : Option String := none
  /-- `train_test_split` -/
  splitError : Option String := none
  /-- `model.fit` -/
  fitError : Option String := none
  /-- `model.predict` / `_calculate_metrics` -/
  predictError : Option String := none
  /-- `joblib.dump` -/
  dumpError : Option String := none
  /-- the metrics dictionary `_calculate_metrics` returns on success -/
  metrics : Metrics := []
  /-- the fresh `uuid` generated for the saved model -/
  modelId : String := "model"
  /-- result of `_get_feature_importance` (that helper catches its own
  exceptions and returns `None`, so `none` covers both "failed" and
  "estimator exposes no importances") -/
  featureImportance : Option Metrics := none
  deriving Repr

/-- One observable step of a training run: the registry effects of
`_update_job_status` / `_complete_job` / `_fail_job` / `cancel_training_job`,
plus inert markers recording that the dataset was read (`loadDataset`) and that
`model.fit` ran (`fitModel`). -/
inductive TrainAct where
  | updateStatus (status : String) (progress : ℚ)
  | loadDataset
  | fitModel
  | completeJob (model_id model_path : String) (metrics : Metrics) (feature_importance : Option Metrics)
  | failJob (error_message : String)
  | cancel
  deriving Repr, DecidableEq

namespace TrainAct

/-- Is this act a `cancel_training_job` request (as opposed to a worker step)? -/
def isCancel : TrainAct → Bool
  | cancel => true
  | _ => false

/-- Is this act a terminal write (`_complete_job` or `_fail_job`)? -/
def isTerminal : TrainAct → Bool
  | completeJob _ _ _ _ => true
  | failJob _ => true
  | _ => false

end TrainAct

/-- Mirror of `TrainingService._update_job_status` restricted to this job's
key of the `training_jobs` dict (the `error_message` parameter is never passed
by the training pipeline, hence omitted; `if error_message:` then skips it). -/
def updateJobStatus (status : String) (progress : ℚ) :
    Option TrainingStatus → Option TrainingStatus
  | none => none
  | some job => some { job with status := status, progress := progress }

/-- Mirror of the body of `TrainingService._complete_job` on the job record:
sets status/progress/completed_at/model_path/metrics.  The `model_id` and
`feature_importance` parameters are accepted (they are in the Python
signature) but never written to the record, exactly as in the source. -/
def completeJobRecord (now : ℕ) (model_id model_path : String) (metrics : Metrics)
    (feature_importance : Option Metrics) (job : TrainingStatus) : TrainingStatus :=
  { job with
    status := "completed"
    progress := 100
    completed_at := some now
    model_path := some model_path
    metrics := some metrics }

/-- `TrainingService._complete_job` on this job's registry slot. -/
def completeJob (now : ℕ) (model_id model_path : String) (metrics : Metrics)
    (feature_importance : Option Metrics) :
    Option TrainingStatus → Option TrainingStatus
  | none => none
  | some job => some (completeJobRecord now model_id model_path metrics feature_importance job)

/-- Mirror of `TrainingService._fail_job`. -/
def failJob (now : ℕ) (error_message : String) :
    Option TrainingStatus → Option TrainingStatus
  | none => none
  | some job =>
    some { job with
            status := "failed"
            error_message := some error_message
            completed_at := some now }

/-- Mirror of `TrainingService.cancel_training_job`: returns the Python
return value together with the updated registry slot.  Only a job whose
status is `"queued"` or `"training"` is moved to `"cancelled"`. -/
def cancelTrainingJob (now : ℕ) :
    Option TrainingStatus → Bool × Option TrainingStatus
  | none => (false, none)
  | some job =>
    if job.status ∈ (["queued", "training"] : List String) then
      (true, some { job with status := "cancelled", completed_at := some now })
    else
      (false, some job)

/-- Apply one act to the registry slot at abstract time `now`. -/
def applyTrainAct (now : ℕ) (a : TrainAct) (job : Option TrainingStatus) :
    Option TrainingStatus :=
  match a with
  | .updateStatus s p => updateJobStatus s p job
  | .loadDataset => job
  | .fitModel => job
  | .completeJob mid mp ms fi => completeJob now mid mp ms fi job
  | .failJob m => failJob now m job
  | .cancel => (cancelTrainingJob now job).2

/-- The record `start_training` creates for a fresh job (status `"queued"`,
progress `0.0`, `started_at` the submission time). -/
def initialTrainingStatus (job_id : String) : TrainingStatus :=
  { job_id := job_id, status := "queued", progress := 0, started_at := some 0 }

/-- Fold a list of acts over the fresh job record, ticking the clock once per
act.  The first component is the clock, the second the registry slot. -/
def runTrain (job_id : String) (acts : List TrainAct) : ℕ × Option TrainingStatus :=
  acts.foldl (fun s a => (s.1 + 1, applyTrainAct s.1 a s.2))
    (0, some (initialTrainingStatus job_id))

/-- The sequence of registry effects of one `TrainingService._train_model`
execution, as a function of the collaborator environment and the request.
Each branch mirrors the `try:` body: any raised exception is caught by the
trailing `except` which calls `_fail_job(job_id, str(e))`. -/
def trainModelActs (env : TrainEnv) (req : TrainingRequest) : List TrainAct :=
  TrainAct.updateStatus "training" 10 ::
  (if !env.datasetExists then
    [TrainAct.failJob ("Dataset " ++ req.dataset_id ++ " not found")]
  else
    TrainAct.loadDataset ::
    (match env.readError with
    | some m => [TrainAct.failJob m]
    | none =>
      TrainAct.updateStatus "training" 20 ::
      (match env.columnError with
      | some m => [TrainAct.failJob m]
      | none =>
        match env.splitError with
        | some m => [TrainAct.failJob m]
        | none =>
          TrainAct.updateStatus "training" 30 ::
          (match createModel req.algorithm with
          | .error m => [TrainAct.failJob m]
          | .ok _ =>
            TrainAct.fitModel ::
            (match env.fitError with
            | some m => [TrainAct.failJob m]
            | none =>
              TrainAct.updateStatus "training" 70 ::
              (match env.predictError with
              | some m => [TrainAct.failJob m]
              | none =>
                TrainAct.updateStatus "training" 85 ::
                (match env.dumpError with
                | some m => [TrainAct.failJob m]
                | none =>
                  [TrainAct.completeJob env.modelId
                    ("models/" ++ env.modelId ++ ".pkl") env.metrics
                    env.featureImportance])))))))

/-- The worker steps of an interleaved act list (everything except `cancel`). -/
def workerActs (acts : List TrainAct) : List TrainAct :=
  acts.filter (fun a => !a.isCancel)

/-- `acts` is a possible (partial) history of the job: its worker steps form a
prefix of the worker's script, and cancellation requests may be interleaved
anywhere (the per-record lock makes every act atomic). -/
def TrainRun (env : TrainEnv) (req : TrainingRequest) (acts : List TrainAct) : Prop :=
  workerActs acts <+: trainModelActs env req

end TrainingService

namespace TrainingService

/-- Mirror of the pydantic model `TrainingResult`. -/
structure TrainingResult where
  job_id : String
  model_id : String
  algorithm : String
  metrics : Metrics
  feature_importance : Option Metrics := none
  training_duration : ℚ
  model_size : ℤ
  created_at : ℕ
  deriving Repr, DecidableEq

/-- `os.path.basename`: the part of the path after the last `/`. -/
def basename (p : String) : String :=
  (p.splitOn "/").getLastD p

/-- Mirror of `TrainingService.get_training_result`: `None` unless the job
record exists with status `"completed"`; otherwise a `TrainingResult` whose
`feature_importance` is the literal `None` (the source comments
"Would need to store this in job status").  `now` stands for the
`datetime.now()` fallback. -/
def getTrainingResult (now : ℕ) (job_id : String) (job : Option TrainingStatus) :
    Option TrainingResult :=
  match job with
  | none => none
  | some st =>
    if st.status ≠ "completed" then none
    else
      some
        { job_id := job_id
          model_id :=
            match st.model_path with
            | some p => (basename p).replace ".pkl" ""
            | none => ""
          algorithm := "unknown"
          metrics := st.metrics.getD []
          feature_importance := none
          training_duration := 0
          model_size := 0
          created_at := st.completed_at.getD now }

end TrainingService

namespace PredictionService

/-- Mirror of the pydantic model `PredictionJob`. -/
structure PredictionJob where
  job_id : String
  model_id : String
  dataset_id : String
  status : String
  progress : ℚ
  total_records : ℕ
  processed_records : ℕ
  output_path : Option String := none
  error_message : Option String := none
  started_at : Option ℕ := none
  completed_at : Option ℕ := none
  deriving Repr, DecidableEq

/-- Mirror of the pydantic model `BatchPredictionRequest`. -/
structure BatchPredictionRequest where
  model_id : String
  dataset_id : String
  output_format : String := "json"
  include_confidence : Bool := false
  deriving Repr, DecidableEq

/-- Environment of external collaborators for one `_run_batch_prediction`
execution.  `chunkPredError i` / `chunkConf i` describe the `model.predict` /
`_calculate_confidence_scores` calls on the chunk starting at row `i`
(the latter catches its own exceptions and returns `None`, so `none` covers
both "failed" and no usable heuristic). -/
structure PredEnv where
  /-- `os.path.exists(dataset_path)` -/
  datasetExists : Bool
  /-- `pd.read_csv` -/
  readError : Option String := none
  /-- `len(df)`: the number of rows of the dataset -/
  n : ℕ
  /-- `os.path.exists(model_path)` -/
  modelExists : Bool
  /-- `joblib.load` -/
  loadError : Option String := none
  /-- `model.predict` on the chunk starting at row `i` -/
  chunkPredError : ℕ → Option String := fun _ => none
  /-- per-row prediction value produced by the model -/
  rowPred : ℕ → ℚ := fun _ => 0
  /-- `_calculate_confidence_scores` on the chunk starting at row `i` -/
  chunkConf : ℕ → Option (List ℚ) := fun _ => none
  /-- writing the output file (`json.dump` / `DataFrame.to_csv`) -/
  saveError : Option String := none

/-- One observable step of a batch-prediction run (registry effects plus the
inert markers `loadDataset` / `loadModelFile`). -/
inductive PredAct where
  | updateStatus (status : String) (progress : ℚ)
  | loadDataset
  | loadModelFile
  | setTotal (total_records : ℕ)
  | setProcessed (processed_records : ℕ)
  | complete (output_path : String)
  | failJob (error_message : String)
  | cancel
  deriving Repr, DecidableEq

namespace PredAct

/-- Is this act a `cancel_prediction_job` request? -/
def isCancel : PredAct → Bool
  | cancel => true
  | _ => false

/-- Is this act a terminal write (the completion block or `_fail_job`)? -/
def isTerminal : PredAct → Bool
  | complete _ => true
  | failJob _ => true
  | _ => false

end PredAct

/-- Mirror of `PredictionService._update_job_status` on this job's slot. -/
def updateJobStatus (status : String) (progress : ℚ) :
    Option PredictionJob → Option PredictionJob
  | none => none
  | some job => some { job with status := status, progress := progress }

/-- Mirror of `PredictionService._fail_job`. -/
def failJob (now : ℕ) (error_message : String) :
    Option PredictionJob → Option PredictionJob
  | none => none
  | some job =>
    some { job with
            status := "failed"
            error_message := some error_message
            completed_at := some now }

/-- Mirror of the completion block of `_run_batch_prediction` (lines 185-190):
status `"completed"`, progress `100.0`, `output_path`, `completed_at`. -/
def completeJob (now : ℕ) (output_path : String) :
    Option PredictionJob → Option PredictionJob
  | none => none
  | some job =>
    some { job with
            status := "completed"
            progress := 100
            output_path := some output_path
            completed_at := some now }

/-- Mirror of `PredictionService.cancel_prediction_job`. -/
def cancelPredictionJob (now : ℕ) :
    Option PredictionJob → Bool × Option PredictionJob
  | none => (false, none)
  | some job =>
    if job.status ∈ (["queued", "running"] : List String) then
      (true, some { job with status := "cancelled", completed_at := some now })
    else
      (false, some job)

/-- Apply one act to the registry slot at abstract time `now`. -/
def applyPredAct (now : ℕ) (a : PredAct) (job : Option PredictionJob) :
    Option PredictionJob :=
  match a with
  | .updateStatus s p => updateJobStatus s p job
  | .loadDataset => job
  | .loadModelFile => job
  | .setTotal t => (Option.map (fun job => { job with total_records := t })) job
  | .setProcessed pr => (Option.map (fun job => { job with processed_records := pr })) job
  | .complete out => completeJob now out job
  | .failJob m => failJob now m job
  | .cancel => (cancelPredictionJob now job).2

/-- The record `start_batch_prediction` creates for a fresh job. -/
def initialPredictionJob (job_id : String) (req : BatchPredictionRequest) : PredictionJob :=
  { job_id := job_id
    model_id := req.model_id
    dataset_id := req.dataset_id
    status := "queued"
    progress := 0
    total_records := 0
    processed_records := 0
    started_at := some 0 }

/-- Fold a list of acts over the fresh job record, ticking the clock. -/
def runPred (job_id : String) (req : BatchPredictionRequest) (acts : List PredAct) :
    ℕ × Option PredictionJob :=
  acts.foldl (fun s a => (s.1 + 1, applyPredAct s.1 a s.2))
    (0, some (initialPredictionJob job_id req))

/-- Result of the chunked prediction loop
`for i in range(0, total_records, batch_size)` with `batch_size = 1000`:
the registry acts it performs, the accumulated `predictions` and
`confidence_scores` lists, and the exception (if any) that aborted it. -/
structure ChunkOut where
  acts : List PredAct
  preds : List ℚ
  confs : List ℚ
  err : Option String
  deriving Repr

/-- The chunk loop of `_run_batch_prediction`, starting at row `s`.  Each
iteration predicts one chunk (raising aborts the loop), best-effort extends
the confidence list (`if batch_confidence:` skips a `None`/empty result), sets
`processed_records = min(i + batch_size, total_records)` and writes progress
`20.0 + (processed_records / total_records) * 60.0`. -/
def chunkLoop (env : PredEnv) (req : BatchPredictionRequest) (s : ℕ) : ChunkOut :=
  if h : s < env.n then
    match env.chunkPredError s with
    | some m => ⟨[], [], [], some m⟩
    | none =>
      let processed := min (s + 1000) env.n
      let batchPreds := (List.range (processed - s)).map (fun k => env.rowPred (s + k))
      let batchConfs :=
        if req.include_confidence then (env.chunkConf s).getD [] else []
      let rest := chunkLoop env req (s + 1000)
      ⟨PredAct.setProcessed processed ::
         PredAct.updateStatus "running" (20 + ((processed : ℚ) / (env.n : ℚ)) * 60) ::
         rest.acts,
       batchPreds ++ rest.preds, batchConfs ++ rest.confs, rest.err⟩
  else ⟨[], [], [], none⟩
termination_by env.n - s
decreasing_by omega

/-- The serialized output artifact of a completed batch-prediction job
(`output_data` in the source; the `created_at` timestamp is omitted).  The
`confidence_scores` key is present only when `if confidence_scores:` is truthy,
i.e. the accumulated list is non-empty. -/
structure BatchOutputData where
  predictions : List ℚ
  model_id : String
  dataset_id : String
  confidence_scores : Option (List ℚ) := none
  deriving Repr, DecidableEq

/-- One `PredictionService._run_batch_prediction` execution: the registry acts
performed, and the output artifact (`some` exactly when the job runs to
completion and the output file is written). -/
def runBatchPrediction (env : PredEnv) (req : BatchPredictionRequest) (job_id : String) :
    List PredAct × Option BatchOutputData :=
  (PredAct.updateStatus "running" 5 ::
    (if !env.datasetExists then
      [PredAct.failJob ("Dataset " ++ req.dataset_id ++ " not found")]
    else
      PredAct.loadDataset ::
      (match env.readError with
      | some m => [PredAct.failJob m]
      | none =>
        PredAct.setTotal env.n ::
        PredAct.updateStatus "running" 10 ::
        (if !env.modelExists then
          [PredAct.failJob ("Model " ++ req.model_id ++ " not found")]
        else
          PredAct.loadModelFile ::
          (match env.loadError with
          | some m => [PredAct.failJob m]
          | none =>
            PredAct.updateStatus "running" 20 ::
            ((chunkLoop env req 0).acts ++
              (match (chunkLoop env req 0).err with
              | some m => [PredAct.failJob m]
              | none =>
                match env.saveError with
                | some m => [PredAct.failJob m]
                | none =>
                  [PredAct.complete
                    ("outputs/" ++ job_id ++ "_predictions." ++
                      (if req.output_format = "json" then "json" else "csv"))])))))),
   if env.datasetExists ∧ env.readError = none ∧ env.modelExists ∧
      env.loadError = none ∧ (chunkLoop env req 0).err = none ∧
      env.saveError = none then
     some
       { predictions := (chunkLoop env req 0).preds
         model_id := req.model_id
         dataset_id := req.dataset_id
         confidence_scores :=
           if (chunkLoop env req 0).confs.isEmpty then none
           else some (chunkLoop env req 0).confs }
   else none)

/-- The registry-act trace of one batch-prediction worker execution. -/
def runBatchActs (env : PredEnv) (req : BatchPredictionRequest) (job_id : String) :
    List PredAct :=
  (runBatchPrediction env req job_id).1

/-- The worker steps of an interleaved act list. -/
def predWorkerActs (acts : List PredAct) : List PredAct :=
  acts.filter (fun a => !a.isCancel)

/-- `acts` is a possible (partial) history of the batch-prediction job. -/
def PredRun (env : PredEnv) (req : BatchPredictionRequest) (job_id : String)
    (acts : List PredAct) : Prop :=
  predWorkerActs acts <+: runBatchActs env req job_id

end PredictionService

namespace ValidationService

/-- Mirror of the pydantic model `ValidationResult`.  The `classification_report`
(`Dict[str, Any]`) is kept as an opaque serialized payload. -/
structure ValidationResult where
  job_id : String
  model_id : String
  dataset_id : String
  validation_type : String
  metrics : Metrics
  cross_validation_scores : Option (List (String × List ℚ)) := none
  confusion_matrix : Option (List (List ℤ)) := none
  classification_report : Option String := none
  validation_duration : ℚ
  created_at : ℕ
  deriving Repr, DecidableEq

/-- Mirror of the pydantic model `ValidationJob`. -/
structure ValidationJob where
  job_id : String
  model_id : String
  dataset_id : String
  status : String
  progress : ℚ
  error_message : Option String := none
  started_at : Option ℕ := none
  completed_at : Option ℕ := none
  result : Option ValidationResult := none
  deriving Repr, DecidableEq

/-- Mirror of the pydantic model `ValidationRequest`. -/
structure ValidationRequest where
  model_id : String
  dataset_id : String
  validation_type : String := "cross_validation"
  cv_folds : ℕ := 5
  metrics : List String := ["accuracy", "precision", "recall", "f1_score"]
  deriving Repr, DecidableEq

/-- Environment of external collaborators for one `_run_validation` execution.
The cross-validation / holdout computation (`_perform_cross_validation` or
`_perform_holdout_validation`) is a single collaborator call whose outputs, on
success, are the fields below. -/
structure ValEnv where
  /-- `os.path.exists(dataset_path)` -/
  datasetExists : Bool
  /-- `pd.read_csv` -/
  readError : Option String := none
  /-- `os.path.exists(model_path)` -/
  modelExists : Bool
  /-- `joblib.load` -/
  loadError : Option String := none
  /-- the validation computation (column selection, fitting, scoring) -/
  validError : Option String := none
  /-- `validation_result["metrics"]` on success -/
  metrics : Metrics := []
  /-- `validation_result.get("cv_scores")` -/
  cvScores : Option (List (String × List ℚ)) := none
  /-- `validation_result.get("confusion_matrix")` -/
  confusionMatrix : Option (List (List ℤ)) := none
  /-- `validation_result.get("classification_report")` -/
  classificationReport : Option String := none
  /-- `validation_result["duration"]` -/
  duration : ℚ := 0

/-- One observable step of a validation run. -/
inductive ValAct where
  | updateStatus (status : String) (progress : ℚ)
  | loadDataset
  | loadModelFile
  | complete (result : ValidationResult)
  | failJob (error_message : String)
  | cancel
  deriving Repr, DecidableEq

namespace ValAct

/-- Is this act a `cancel_validation_job` request? -/
def isCancel : ValAct → Bool
  | cancel => true
  | _ => false

/-- Is this act a terminal write (the completion block or `_fail_job`)? -/
def isTerminal : ValAct → Bool
  | complete _ => true
  | failJob _ => true
  | _ => false

end ValAct

/-- Mirror of `ValidationService._update_job_status` on this job's slot. -/
def updateJobStatus (status : String) (progress : ℚ) :
    Option ValidationJob → Option ValidationJob
  | none => none
  | some job => some { job with status := status, progress := progress }

/-- Mirror of `ValidationService._fail_job`. -/
def failJob (now : ℕ) (error_message : String) :
    Option ValidationJob → Option ValidationJob
  | none => none
  | some job =>
    some { job with
            status := "failed"
            error_message := some error_message
            completed_at := some now }

/-- Mirror of the completion block of `_run_validation` (lines 127-132):
status `"completed"`, progress `100.0`, `completed_at`, `result`. -/
def completeJob (now : ℕ) (result : ValidationResult) :
    Option ValidationJob → Option ValidationJob
  | none => none
  | some job =>
    some { job with
            status := "completed"
            progress := 100
            completed_at := some now
            result := some result }

/-- Mirror of `ValidationService.cancel_validation_job`. -/
def cancelValidationJob (now : ℕ) :
    Option ValidationJob → Bool × Option ValidationJob
  | none => (false, none)
  | some job =>
    if job.status ∈ (["queued", "running"] : List String) then
      (true, some { job with status := "cancelled", completed_at := some now })
    else
      (false, some job)

/-- Apply one act to the registry slot at abstract time `now`. -/
def applyValAct (now : ℕ) (a : ValAct) (job : Option ValidationJob) :
    Option ValidationJob :=
  match a with
  | .updateStatus s p => updateJobStatus s p job
  | .loadDataset => job
  | .loadModelFile => job
  | .complete r => completeJob now r job
  | .failJob m => failJob now m job
  | .cancel => (cancelValidationJob now job).2

/-- The record `start_validation` creates for a fresh job. -/
def initialValidationJob (job_id : String) (req : ValidationRequest) : ValidationJob :=
  { job_id := job_id
    model_id := req.model_id
    dataset_id := req.dataset_id
    status := "queued"
    progress := 0
    started_at := some 0 }

/-- Fold a list of acts over the fresh job record, ticking the clock. -/
def runVal (job_id : String) (req : ValidationRequest) (acts : List ValAct) :
    ℕ × Option ValidationJob :=
  acts.foldl (fun s a => (s.1 + 1, applyValAct s.1 a s.2))
    (0, some (initialValidationJob job_id req))

/-- The `ValidationResult` built at line 113 of `_run_validation` on success. -/
def builtResult (env : ValEnv) (req : ValidationRequest) (job_id : String) (now : ℕ) :
    ValidationResult :=
  { job_id := job_id
    model_id := req.model_id
    dataset_id := req.dataset_id
    validation_type := req.validation_type
    metrics := env.metrics
    cross_validation_scores := env.cvScores
    confusion_matrix := env.confusionMatrix
    classification_report := env.classificationReport
    validation_duration := env.duration
    created_at := now }

/-- The sequence of registry effects of one `ValidationService._run_validation`
execution (`now₀` is the abstract time at which the result payload is built). -/
def runValidationActs (env : ValEnv) (req : ValidationRequest) (job_id : String)
    (now₀ : ℕ) : List ValAct :=
  ValAct.updateStatus "running" 10 ::
  (if !env.datasetExists then
    [ValAct.failJob ("Dataset " ++ req.dataset_id ++ " not found")]
  else
    ValAct.loadDataset ::
    (match env.readError with
    | some m => [ValAct.failJob m]
    | none =>
      ValAct.updateStatus "running" 20 ::
      (if !env.modelExists then
        [ValAct.failJob ("Model " ++ req.model_id ++ " not found")]
      else
        ValAct.loadModelFile ::
        (match env.loadError with
        | some m => [ValAct.failJob m]
        | none =>
          ValAct.updateStatus "running" 30 ::
          (match env.validError with
          | some m => [ValAct.failJob m]
          | none =>
            [ValAct.updateStatus "running" 80,
             ValAct.complete (builtResult env req job_id now₀)])))))

/-- The worker steps of an interleaved act list. -/
def valWorkerActs (acts : List ValAct) : List ValAct :=
  acts.filter (fun a => !a.isCancel)

/-- `acts` is a possible (partial) history of the validation job. -/
def ValRun (env : ValEnv) (req : ValidationRequest) (job_id : String) (now₀ : ℕ)
    (acts : List ValAct) : Prop :=
  valWorkerActs acts <+: runValidationActs env req job_id now₀

/-- Mirror of the pydantic model `ModelComparison` (timestamp omitted). -/
structure ModelComparison where
  models : List String
  dataset_id : String
  metrics : List (String × Metrics)
  best_model : String
  comparison_criteria : String
  deriving Repr, DecidableEq

/-- The criteria the best-model loop of `compare_models` treats as
higher-is-better (line 318 of `validation_service.py`). -/
def higherIsBetter (criterion : String) : Bool :=
  criterion ∈ (["accuracy", "precision", "recall", "f1_score", "r2_score"] : List String)

/-- One step of the best-model selection loop of `compare_models`: `best` is
`none` while `best_score` is still at its `float('-inf')` / `float('inf')`
initialization, so the first usable score always wins, and afterwards a
candidate wins only by a strict improvement in the criterion's direction. -/
def pickBest (hb : Bool) (criterion : String) (best : Option (String × ℚ))
    (cand : String × Metrics) : Option (String × ℚ) :=
  match cand.2.lookup criterion with
  | none => best
  | some score =>
    match best with
    | none => some (cand.1, score)
    | some (bestId, bestScore) =>
      if (if hb then bestScore < score else score < bestScore) then
        some (cand.1, score)
      else
        some (bestId, bestScore)

/-- Mirror of `ValidationService.compare_models`.  The per-candidate block
(`os.path.exists` check, `joblib.load`, refit, predict, metric computation) is
the collaborator `evalModel`: `none` when the candidate is skipped (model file
missing, or any exception during load/fit/evaluation — both reached by
`continue`), `some metrics` on success.  The result dictionary preserves
candidate order; `best_model or "none"` maps both `None` and the empty string
to `"none"` (Python falsiness). -/
def compareModels (model_ids : List String) (dataset_id : String)
    (evalModel : String → Option Metrics)
    (comparison_criteria : String := "accuracy") : ModelComparison :=
  let results : List (String × Metrics) :=
    model_ids.filterMap (fun id => (evalModel id).map (fun ms => (id, ms)))
  let best : Option (String × ℚ) :=
    results.foldl (pickBest (higherIsBetter comparison_criteria) comparison_criteria) none
  { models := model_ids
    dataset_id := dataset_id
    metrics := results
    best_model :=
      match best with
      | none => "none"
      | some (id, _) => if id = "" then "none" else id
    comparison_criteria := comparison_criteria }

end ValidationService

namespace PredictionService

/-- The model-cache state of `PredictionService`: the `models_cache` dict
(keyed by model id) plus an instrumentation counter of how many times the
storage loader (`joblib.load`) has been invoked. -/
structure CacheState (A : Type) where
  models_cache : String → Option A
  loads : ℕ

/-- The empty cache `PredictionService.__init__` starts with. -/
def emptyCache (A : Type) : CacheState A :=
  { models_cache := fun _ => none, loads := 0 }

/-- Mirror of `PredictionService._load_model`: a cache hit returns the cached
artifact without touching storage; otherwise `os.path.exists` is checked
(raising `FileNotFoundError` if the model file is absent, modelled by
`store model_id = none`), the artifact is deserialized once (`store` is the
model store: `joblib.load` composed with the `models/{id}.pkl` path), stored
in the cache, and returned. -/
def loadModel {A : Type} (store : String → Option A) (st : CacheState A)
    (model_id : String) : Except String (A × CacheState A) :=
  match st.models_cache model_id with
  | some model => .ok (model, st)
  | none =>
    match store model_id with
    | none => .error ("Model " ++ model_id ++ " not found")
    | some model =>
      .ok (model,
        { models_cache := fun id => if id = model_id then some model else st.models_cache id
          loads := st.loads + 1 })

/-- Mirror of `PredictionService.clear_model_cache`: `models_cache.clear()`. -/
def clearModelCache {A : Type} (st : CacheState A) : CacheState A :=
  { st with models_cache := fun _ => none }

end PredictionService

/- ### General list helpers -/

/-- If a list ending in `a` is a prefix of a list ending in `t`, then either
`a` occurs in the longer list's body, or the two lists coincide. -/
theorem prefix_concat_cases {α : Type} {l b : List α} {a t : α}
    (h : l ++ [a] <+: b ++ [t]) : a ∈ b ∨ (l = b ∧ a = t) := by
  obtain ⟨r, hr⟩ := h
  rcases List.eq_nil_or_concat r with rfl | ⟨r', x, rfl⟩
  · rw [List.append_nil] at hr
    have h2 := List.append_inj' hr rfl
    exact Or.inr ⟨h2.1, by simpa using h2.2⟩
  · have hx : (l ++ [a] ++ r') ++ [x] = b ++ [t] := by
      rw [← hr]; simp
    have h2 := List.append_inj' hx rfl
    left
    rw [← h2.1]
    simp

namespace TrainingService

/- ### Shape of the training worker trace -/

/-- Non-terminal acts the training worker performs before its terminal write:
progress updates with the literal status `"training"`, and the two inert
markers. -/
def isTrainBodyAct : TrainAct → Bool
  | .updateStatus s _ => s = "training"
  | .loadDataset => true
  | .fitModel => true
  | _ => false

/-- The terminal registry write of one `_train_model` execution. -/
def trainTerminalAct (env : TrainEnv) (req : TrainingRequest) : TrainAct :=
  if !env.datasetExists then
    .failJob ("Dataset " ++ req.dataset_id ++ " not found")
  else match env.readError with
  | some m => .failJob m
  | none => match env.columnError with
    | some m => .failJob m
    | none => match env.splitError with
      | some m => .failJob m
      | none => match createModel req.algorithm with
        | .error m => .failJob m
        | .ok _ => match env.fitError with
          | some m => .failJob m
          | none => match env.predictError with
            | some m => .failJob m
            | none => match env.dumpError with
              | some m => .failJob m
              | none =>
                .completeJob env.modelId ("models/" ++ env.modelId ++ ".pkl")
                  env.metrics env.featureImportance

/-- The non-terminal acts of one `_train_model` execution, in order. -/
def trainBodyList (env : TrainEnv) (req : TrainingRequest) : List TrainAct :=
  .updateStatus "training" 10 ::
  (if !env.datasetExists then []
   else .loadDataset :: match env.readError with
   | some _ => []
   | none => .updateStatus "training" 20 :: match env.columnError with
     | some _ => []
     | none => match env.splitError with
       | some _ => []
       | none => .updateStatus "training" 30 :: match createModel req.algorithm with
         | .error _ => []
         | .ok _ => .fitModel :: match env.fitError with
           | some _ => []
           | none => .updateStatus "training" 70 :: match env.predictError with
             | some _ => []
             | none => .updateStatus "training" 85 :: match env.dumpError with
               | some _ => []
               | none => [])

/-- Every training worker trace is its body followed by exactly one terminal
write. -/
theorem trainModelActs_eq_body_terminal (env : TrainEnv) (req : TrainingRequest) :
    trainModelActs env req = trainBodyList env req ++ [trainTerminalAct env req] := by
  unfold trainModelActs trainBodyList trainTerminalAct
  cases env.datasetExists <;> cases env.readError <;> cases env.columnError <;>
    cases env.splitError <;> cases createModel req.algorithm <;>
    cases env.fitError <;> cases env.predictError <;> cases env.dumpError <;> simp

/-- Every act in the body is a `"training"` progress update or a marker. -/
theorem trainBodyList_all (env : TrainEnv) (req : TrainingRequest) :
    (trainBodyList env req).all isTrainBodyAct = true := by
  unfold trainBodyList
  cases env.datasetExists <;> cases env.readError <;> cases env.columnError <;>
    cases env.splitError <;> cases createModel req.algorithm <;>
    cases env.fitError <;> cases env.predictError <;> cases env.dumpError <;> rfl

/-- The terminal write is either the fully-determined `_complete_job` call or
some `_fail_job` call. -/
theorem trainTerminalAct_cases (env : TrainEnv) (req : TrainingRequest) :
    trainTerminalAct env req =
      .completeJob env.modelId ("models/" ++ env.modelId ++ ".pkl")
        env.metrics env.featureImportance ∨
    ∃ m, trainTerminalAct env req = .failJob m := by
  unfold trainTerminalAct
  cases env.datasetExists <;> cases env.readError <;> cases env.columnError <;>
    cases env.splitError <;> cases createModel req.algorithm <;>
    cases env.fitError <;> cases env.predictError <;> cases env.dumpError <;> simp

/- ### Registry fold helpers (training) -/

theorem workerActs_append (l l' : List TrainAct) :
    workerActs (l ++ l') = workerActs l ++ workerActs l' := by
  unfold workerActs
  simp

theorem runTrain_concat (jid : String) (acts : List TrainAct) (a : TrainAct) :
    runTrain jid (acts ++ [a]) =
      ((runTrain jid acts).1 + 1,
        applyTrainAct (runTrain jid acts).1 a (runTrain jid acts).2) := by
  unfold runTrain
  rw [List.foldl_append]
  rfl

theorem applyUpdate_some (now : ℕ) (s : String) (p : ℚ) (st : TrainingStatus) :
    applyTrainAct now (.updateStatus s p) (some st) =
      some { st with status := s, progress := p } := rfl

theorem applyComplete_some (now : ℕ) (mid mp : String) (ms : Metrics)
    (fi : Option Metrics) (st : TrainingStatus) :
    applyTrainAct now (.completeJob mid mp ms fi) (some st) =
      some { st with status := "completed", progress := 100,
                     completed_at := some now, model_path := some mp,
                     metrics := some ms } := rfl

theorem applyFail_some (now : ℕ) (m : String) (st : TrainingStatus) :
    applyTrainAct now (.failJob m) (some st) =
      some { st with status := "failed", error_message := some m,
                     completed_at := some now } := rfl

theorem applyCancel_active (now : ℕ) (st : TrainingStatus)
    (hq : st.status ∈ (["queued", "training"] : List String)) :
    applyTrainAct now .cancel (some st) =
      some { st with status := "cancelled", completed_at := some now } := by
  simp [applyTrainAct, cancelTrainingJob, hq]

theorem applyCancel_noop (now : ℕ) (st : TrainingStatus)
    (hq : st.status ∉ (["queued", "training"] : List String)) :
    applyTrainAct now .cancel (some st) = some st := by
  simp [applyTrainAct, cancelTrainingJob, hq]

/-- Invariant of a training job record before the worker's terminal write:
not yet completed or failed, no payload, no error. -/
def PreInvT (st : TrainingStatus) : Prop :=
  st.status ∈ (["queued", "training", "cancelled"] : List String) ∧
  st.metrics = none ∧ st.model_path = none ∧ st.error_message = none

/-- Invariant of a training job record after the worker's terminal write. -/
def DoneInvT (env : TrainEnv) (req : TrainingRequest) (st : TrainingStatus) : Prop :=
  (st.status = "completed" ∧ st.metrics = some env.metrics ∧
    st.model_path = some ("models/" ++ env.modelId ++ ".pkl") ∧
    st.error_message = none) ∨
  (∃ m, st.status = "failed" ∧ st.error_message = some m ∧ st.metrics = none ∧
    st.model_path = none ∧ TrainAct.failJob m ∈ trainModelActs env req)

/-- Master invariant of the training job state machine: along any interleaved
history, the job record exists, and either the worker has not yet written a
terminal state (and the record satisfies `PreInvT`), or the whole worker
script has run (and the record matches its terminal write). -/
theorem trainMaster (env : TrainEnv) (req : TrainingRequest) (jid : String) :
    ∀ acts, TrainRun env req acts →
    ∃ st, (runTrain jid acts).2 = some st ∧
      (PreInvT st ∨ (workerActs acts = trainModelActs env req ∧ DoneInvT env req st)) := by
  intro acts
  induction acts using List.reverseRecOn with
  | nil =>
    intro _
    refine ⟨initialTrainingStatus jid, rfl, Or.inl ⟨?_, rfl, rfl, rfl⟩⟩
    simp [initialTrainingStatus]
  | append_singleton as a ih =>
    intro h
    have hrunAs : TrainRun env req as := by
      unfold TrainRun at h ⊢
      rw [workerActs_append] at h
      exact (List.prefix_append _ _).trans h
    obtain ⟨st, hst, hdisj⟩ := ih hrunAs
    have hfold : (runTrain jid (as ++ [a])).2 =
        applyTrainAct (runTrain jid as).1 a (runTrain jid as).2 := by
      rw [runTrain_concat]
    by_cases hc : a.isCancel = true
    · have ha : a = .cancel := by
        cases a <;> simp_all [TrainAct.isCancel]
      subst ha
      have hwa : workerActs (as ++ [TrainAct.cancel]) = workerActs as := by
        rw [workerActs_append]
        simp [workerActs, TrainAct.isCancel]
      rcases hdisj with hpre | ⟨hdone, hinv⟩
      · by_cases hq : st.status ∈ (["queued", "training"] : List String)
        · rw [hfold, hst, applyCancel_active _ _ hq]
          refine ⟨_, rfl, Or.inl ⟨?_, hpre.2.1, hpre.2.2.1, hpre.2.2.2⟩⟩
          simp
        · rw [hfold, hst, applyCancel_noop _ _ hq]
          exact ⟨st, rfl, Or.inl hpre⟩
      · have hq : st.status ∉ (["queued", "training"] : List String) := by
          rcases hinv with ⟨hs, _⟩ | ⟨m, hs, _⟩ <;> rw [hs] <;> decide
        rw [hfold, hst, applyCancel_noop _ _ hq]
        exact ⟨st, rfl, Or.inr ⟨hwa.trans hdone, hinv⟩⟩
    · have hc' : a.isCancel = false := by simpa using hc
      have hwa : workerActs (as ++ [a]) = workerActs as ++ [a] := by
        rw [workerActs_append]
        simp [workerActs, List.filter, hc']
      have hW : workerActs as ++ [a] <+:
          trainBodyList env req ++ [trainTerminalAct env req] := by
        rw [← hwa, ← trainModelActs_eq_body_terminal]
        exact h
      rcases prefix_concat_cases hW with hmem | ⟨heq, hterm⟩
      · have hbody : isTrainBodyAct a = true := by
          have hall := trainBodyList_all env req
          rw [List.all_eq_true] at hall
          exact hall a hmem
        rcases hdisj with hpre | ⟨hdoneW, _⟩
        · cases a with
          | updateStatus s p =>
            have hs : s = "training" := by
              simpa [isTrainBodyAct] using hbody
            subst hs
            rw [hfold, hst, applyUpdate_some]
            refine ⟨_, rfl, Or.inl ⟨?_, hpre.2.1, hpre.2.2.1, hpre.2.2.2⟩⟩
            simp
          | loadDataset =>
            rw [hfold, hst]
            exact ⟨st, rfl, Or.inl hpre⟩
          | fitModel =>
            rw [hfold, hst]
            exact ⟨st, rfl, Or.inl hpre⟩
          | completeJob mid mp ms fi => simp [isTrainBodyAct] at hbody
          | failJob m => simp [isTrainBodyAct] at hbody
          | cancel => simp [TrainAct.isCancel] at hc'
        · exfalso
          have hpref : workerActs as ++ [a] <+: trainModelActs env req := by
            rw [← hwa]
            exact h
          have hlen := hpref.length_le
          rw [hdoneW] at hlen
          simp at hlen
      · subst hterm
        have hpre : PreInvT st := by
          rcases hdisj with hpre | ⟨hdoneW, _⟩
          · exact hpre
          · exfalso
            rw [trainModelActs_eq_body_terminal, heq] at hdoneW
            have := congrArg List.length hdoneW
            simp at this
        have hfull : workerActs (as ++ [trainTerminalAct env req]) =
            trainModelActs env req := by
          rw [hwa, heq, trainModelActs_eq_body_terminal]
        rcases trainTerminalAct_cases env req with hcm | ⟨m, hm⟩
        · rw [hcm] at hfold hfull ⊢
          rw [hfold, hst, applyComplete_some]
          exact ⟨_, rfl, Or.inr ⟨hfull, Or.inl ⟨rfl, rfl, rfl, hpre.2.2.2⟩⟩⟩
        · rw [hm] at hfold hfull ⊢
          rw [hfold, hst, applyFail_some]
          refine ⟨_, rfl, Or.inr ⟨hfull, Or.inr ⟨m, rfl, rfl, hpre.2.1, hpre.2.2.1, ?_⟩⟩⟩
          rw [trainModelActs_eq_body_terminal, hm]
          simp

end TrainingService

namespace TrainingService

/- ### Progress writes (training) -/

/-- The successive progress values a list of acts writes into the registry:
`_update_job_status` writes its argument, `_complete_job` writes `100.0`;
`_fail_job` and `cancel_training_job` do not touch `progress`. -/
def trainProgressWrites (acts : List TrainAct) : List ℚ :=
  acts.filterMap fun a =>
    match a with
    | .updateStatus _ p => some p
    | .completeJob _ _ _ _ => some (100 : ℚ)
    | _ => none

theorem trainProgressWrites_append (l l' : List TrainAct) :
    trainProgressWrites (l ++ l') = trainProgressWrites l ++ trainProgressWrites l' := by
  unfold trainProgressWrites
  rw [List.filterMap_append]

theorem trainProgressWrites_workerActs (acts : List TrainAct) :
    trainProgressWrites (workerActs acts) = trainProgressWrites acts := by
  induction acts with
  | nil => rfl
  | cons a l ih =>
    cases a <;>
      simp_all [workerActs, trainProgressWrites, TrainAct.isCancel, List.filter_cons]

/-- The progress values of a full training worker trace form a prefix of the
checkpoint sequence `10, 20, 30, 70, 85, 100`. -/
theorem trainProgressWrites_trace_prefix (env : TrainEnv) (req : TrainingRequest) :
    trainProgressWrites (trainModelActs env req) <+: ([10, 20, 30, 70, 85, 100] : List ℚ) := by
  unfold trainModelActs trainProgressWrites
  cases env.datasetExists <;> cases env.readError <;> cases env.columnError <;>
    cases env.splitError <;> cases createModel req.algorithm <;>
    cases env.fitError <;> cases env.predictError <;> cases env.dumpError <;>
    simp <;> decide

/- ### Error messages (training) -/

/-- `_create_model` raises exactly the unsupported-algorithm message. -/
theorem createModel_error_msg (alg m : String) (h : createModel alg = .error m) :
    m = "Unsupported algorithm: " ++ alg := by
  unfold createModel at h
  split_ifs at h <;> simp_all

/-- `_create_model` fails exactly on identifiers outside the enum. -/
theorem createModel_error_iff (alg : String) :
    (∃ m, createModel alg = .error m) ↔ alg ∉ supportedAlgorithms := by
  unfold createModel supportedAlgorithms
  split_ifs with h1 h2 h3 h4 h5 <;> simp_all

/-- Provenance of every `_fail_job` message in a training trace. -/
theorem trainTrace_failJob_msg (env : TrainEnv) (req : TrainingRequest) (m : String)
    (h : TrainAct.failJob m ∈ trainModelActs env req) :
    m = "Dataset " ++ req.dataset_id ++ " not found" ∨
    createModel req.algorithm = .error m ∨
    env.readError = some m ∨ env.columnError = some m ∨ env.splitError = some m ∨
    env.fitError = some m ∨ env.predictError = some m ∨ env.dumpError = some m := by
  unfold trainModelActs at h
  revert h
  cases env.datasetExists <;> cases env.readError <;> cases env.columnError <;>
    cases env.splitError <;> cases hcm : createModel req.algorithm <;>
    cases env.fitError <;> cases env.predictError <;> cases env.dumpError <;>
    intro h <;> simp_all

/-- Hypothesis: every exception message the collaborators can produce is
non-empty (Python's `str(e)` of the library exceptions raised here). -/
def TrainMsgsNonempty (env : TrainEnv) : Prop :=
  (∀ m, env.readError = some m → m ≠ "") ∧
  (∀ m, env.columnError = some m → m ≠ "") ∧
  (∀ m, env.splitError = some m → m ≠ "") ∧
  (∀ m, env.fitError = some m → m ≠ "") ∧
  (∀ m, env.predictError = some m → m ≠ "") ∧
  (∀ m, env.dumpError = some m → m ≠ "")

theorem string_append_ne_empty_left {s : String} (t : String) (h : s ≠ "") :
    s ++ t ≠ "" := by
  intro he
  apply h
  have hl := congrArg String.length he
  rw [String.length_append] at hl
  have h0 : s.length = 0 := by
    have : ("" : String).length = 0 := rfl
    omega
  cases s with
  | mk data =>
    cases data with
    | nil => rfl
    | cons c cs => simp [String.length, List.length] at h0

/-- Every `_fail_job` message of a training trace is non-empty, given that the
collaborator exception messages are. -/
theorem trainTrace_failJob_msg_ne_empty (env : TrainEnv) (req : TrainingRequest)
    (hne : TrainMsgsNonempty env) (m : String)
    (h : TrainAct.failJob m ∈ trainModelActs env req) : m ≠ "" := by
  rcases trainTrace_failJob_msg env req m h with hm | hm | hm | hm | hm | hm | hm | hm
  · rw [hm]
    exact string_append_ne_empty_left _
      (string_append_ne_empty_left _ (by decide))
  · rw [createModel_error_msg _ _ hm]
    exact string_append_ne_empty_left _ (by decide)
  · exact hne.1 m hm
  · exact hne.2.1 m hm
  · exact hne.2.2.1 m hm
  · exact hne.2.2.2.1 m hm
  · exact hne.2.2.2.2.1 m hm
  · exact hne.2.2.2.2.2 m hm

/- ### Terminal states persist (training) -/

theorem trainCancelOnlyFold (ext : List TrainAct) :
    ∀ (c : ℕ) (st : TrainingStatus), (∀ a ∈ ext, a.isCancel = true) →
    st.status ∉ (["queued", "training"] : List String) →
    (ext.foldl (fun s a => (s.1 + 1, applyTrainAct s.1 a s.2)) (c, some st)).2 = some st := by
  induction ext with
  | nil => intro c st _ _; rfl
  | cons a l ih =>
    intro c st hall hq
    have ha : a = .cancel := by
      have := hall a (by simp)
      cases a <;> simp_all [TrainAct.isCancel]
    subst ha
    simp only [List.foldl_cons]
    rw [applyCancel_noop c st hq]
    exact ih (c + 1) st (fun b hb => hall b (by simp [hb])) hq

/-- Once a training job record is `"completed"` or `"failed"`, any further
history (later worker steps are impossible, cancellations are no-ops) leaves
the record unchanged. -/
theorem trainTerminal_persists (env : TrainEnv) (req : TrainingRequest) (jid : String)
    (acts ext : List TrainAct) (h : TrainRun env req (acts ++ ext))
    (st : TrainingStatus) (hst : (runTrain jid acts).2 = some st)
    (hterm : st.status = "completed" ∨ st.status = "failed") :
    (runTrain jid (acts ++ ext)).2 = some st := by
  have hrunActs : TrainRun env req acts := by
    unfold TrainRun at h ⊢
    rw [workerActs_append] at h
    exact (List.prefix_append _ _).trans h
  obtain ⟨st', hst', hdisj⟩ := trainMaster env req jid acts hrunActs
  have hss : st' = st := by
    rw [hst] at hst'
    exact (Option.some_inj.1 hst').symm
  rw [hss] at hdisj
  rcases hdisj with hpre | ⟨hwEq, _⟩
  · exfalso
    have h1 := hpre.1
    rcases hterm with hs | hs <;> rw [hs] at h1 <;> exact absurd h1 (by decide)
  · have hextNil : workerActs ext = [] := by
      unfold TrainRun at h
      rw [workerActs_append, hwEq] at h
      have hlen := h.length_le
      rw [List.length_append] at hlen
      have : (workerActs ext).length = 0 := by omega
      exact List.length_eq_zero.1 this
    have hall : ∀ a ∈ ext, a.isCancel = true := by
      intro a haMem
      have := List.filter_eq_nil_iff.1 hextNil a haMem
      simpa using this
    have hq : st.status ∉ (["queued", "training"] : List String) := by
      rcases hterm with hs | hs <;> rw [hs] <;> decide
    unfold runTrain
    rw [List.foldl_append]
    have hpair : (List.foldl (fun s a => (s.1 + 1, applyTrainAct s.1 a s.2))
        (0, some (initialTrainingStatus jid)) acts) =
        ((runTrain jid acts).1, some st) := by
      rw [← hst]
      rfl
    rw [hpair]
    exact trainCancelOnlyFold ext (runTrain jid acts).1 st hall hq

end TrainingService

namespace ValidationService

/- ### Shape of the validation worker trace -/

/-- Non-terminal acts of the validation worker. -/
def isValBodyAct : ValAct → Bool
  | .updateStatus s _ => s = "running"
  | .loadDataset => true
  | .loadModelFile => true
  | _ => false

/-- The terminal registry write of one `_run_validation` execution. -/
def valTerminalAct (env : ValEnv) (req : ValidationRequest) (job_id : String)
    (now₀ : ℕ) : ValAct :=
  if !env.datasetExists then
    .failJob ("Dataset " ++ req.dataset_id ++ " not found")
  else match env.readError with
  | some m => .failJob m
  | none =>
    if !env.modelExists then
      .failJob ("Model " ++ req.model_id ++ " not found")
    else match env.loadError with
    | some m => .failJob m
    | none => match env.validError with
      | some m => .failJob m
      | none => .complete (builtResult env req job_id now₀)

/-- The non-terminal acts of one `_run_validation` execution, in order. -/
def valBodyList (env : ValEnv) (req : ValidationRequest) : List ValAct :=
  .updateStatus "running" 10 ::
  (if !env.datasetExists then []
   else .loadDataset :: match env.readError with
   | some _ => []
   | none =>
     .updateStatus "running" 20 ::
     (if !env.modelExists then []
      else .loadModelFile :: match env.loadError with
      | some _ => []
      | none =>
        .updateStatus "running" 30 :: match env.validError with
        | some _ => []
        | none => [.updateStatus "running" 80]))

theorem runValidationActs_eq_body_terminal (env : ValEnv) (req : ValidationRequest)
    (jid : String) (now₀ : ℕ) :
    runValidationActs env req jid now₀ =
      valBodyList env req ++ [valTerminalAct env req jid now₀] := by
  unfold runValidationActs valBodyList valTerminalAct
  cases env.datasetExists <;> cases env.readError <;> cases env.modelExists <;>
    cases env.loadError <;> cases env.validError <;> simp

theorem valBodyList_all (env : ValEnv) (req : ValidationRequest) :
    (valBodyList env req).all isValBodyAct = true := by
  unfold valBodyList
  cases env.datasetExists <;> cases env.readError <;> cases env.modelExists <;>
    cases env.loadError <;> cases env.validError <;> rfl

theorem valTerminalAct_cases (env : ValEnv) (req : ValidationRequest)
    (jid : String) (now₀ : ℕ) :
    valTerminalAct env req jid now₀ = .complete (builtResult env req jid now₀) ∨
    ∃ m, valTerminalAct env req jid now₀ = .failJob m := by
  unfold valTerminalAct
  cases env.datasetExists <;> cases env.readError <;> cases env.modelExists <;>
    cases env.loadError <;> cases env.validError <;> simp

/- ### Registry fold helpers (validation) -/

theorem valWorkerActs_append (l l' : List ValAct) :
    valWorkerActs (l ++ l') = valWorkerActs l ++ valWorkerActs l' := by
  unfold valWorkerActs
  simp

theorem runVal_concat (jid : String) (req : ValidationRequest)
    (acts : List ValAct) (a : ValAct) :
    runVal jid req (acts ++ [a]) =
      ((runVal jid req acts).1 + 1,
        applyValAct (runVal jid req acts).1 a (runVal jid req acts).2) := by
  unfold runVal
  rw [List.foldl_append]
  rfl

theorem applyValUpdate_some (now : ℕ) (s : String) (p : ℚ) (st : ValidationJob) :
    applyValAct now (.updateStatus s p) (some st) =
      some { st with status := s, progress := p } := rfl

theorem applyValComplete_some (now : ℕ) (r : ValidationResult) (st : ValidationJob) :
    applyValAct now (.complete r) (some st) =
      some { st with status := "completed", progress := 100,
                     completed_at := some now, result := some r } := rfl

theorem applyValFail_some (now : ℕ) (m : String) (st : ValidationJob) :
    applyValAct now (.failJob m) (some st) =
      some { st with status := "failed", error_message := some m,
                     completed_at := some now } := rfl

theorem applyValCancel_active (now : ℕ) (st : ValidationJob)
    (hq : st.status ∈ (["queued", "running"] : List String)) :
    applyValAct now .cancel (some st) =
      some { st with status := "cancelled", completed_at := some now } := by
  simp [applyValAct, cancelValidationJob, hq]

theorem applyValCancel_noop (now : ℕ) (st : ValidationJob)
    (hq : st.status ∉ (["queued", "running"] : List String)) :
    applyValAct now .cancel (some st) = some st := by
  simp [applyValAct, cancelValidationJob, hq]

/-- Invariant of a validation job record before the worker's terminal write. -/
def PreInvV (st : ValidationJob) : Prop :=
  st.status ∈ (["queued", "running", "cancelled"] : List String) ∧
  st.result = none ∧ st.error_message = none

/-- Invariant of a validation job record after the worker's terminal write. -/
def DoneInvV (env : ValEnv) (req : ValidationRequest) (jid : String) (now₀ : ℕ)
    (st : ValidationJob) : Prop :=
  (st.status = "completed" ∧ st.result = some (builtResult env req jid now₀) ∧
    st.error_message = none) ∨
  (∃ m, st.status = "failed" ∧ st.error_message = some m ∧ st.result = none ∧
    ValAct.failJob m ∈ runValidationActs env req jid now₀)

/-- Master invariant of the validation job state machine. -/
theorem valMaster (env : ValEnv) (req : ValidationRequest) (jid : String) (now₀ : ℕ) :
    ∀ acts, ValRun env req jid now₀ acts →
    ∃ st, (runVal jid req acts).2 = some st ∧
      (PreInvV st ∨
        (valWorkerActs acts = runValidationActs env req jid now₀ ∧
          DoneInvV env req jid now₀ st)) := by
  intro acts
  induction acts using List.reverseRecOn with
  | nil =>
    intro _
    refine ⟨initialValidationJob jid req, rfl, Or.inl ⟨?_, rfl, rfl⟩⟩
    simp [initialValidationJob]
  | append_singleton as a ih =>
    intro h
    have hrunAs : ValRun env req jid now₀ as := by
      unfold ValRun at h ⊢
      rw [valWorkerActs_append] at h
      exact (List.prefix_append _ _).trans h
    obtain ⟨st, hst, hdisj⟩ := ih hrunAs
    have hfold : (runVal jid req (as ++ [a])).2 =
        applyValAct (runVal jid req as).1 a (runVal jid req as).2 := by
      rw [runVal_concat]
    by_cases hc : a.isCancel = true
    · have ha : a = .cancel := by
        cases a <;> simp_all [ValAct.isCancel]
      subst ha
      have hwa : valWorkerActs (as ++ [ValAct.cancel]) = valWorkerActs as := by
        rw [valWorkerActs_append]
        simp [valWorkerActs, ValAct.isCancel]
      rcases hdisj with hpre | ⟨hdone, hinv⟩
      · by_cases hq : st.status ∈ (["queued", "running"] : List String)
        · rw [hfold, hst, applyValCancel_active _ _ hq]
          refine ⟨_, rfl, Or.inl ⟨?_, hpre.2.1, hpre.2.2⟩⟩
          simp
        · rw [hfold, hst, applyValCancel_noop _ _ hq]
          exact ⟨st, rfl, Or.inl hpre⟩
      · have hq : st.status ∉ (["queued", "running"] : List String) := by
          rcases hinv with ⟨hs, _⟩ | ⟨m, hs, _⟩ <;> rw [hs] <;> decide
        rw [hfold, hst, applyValCancel_noop _ _ hq]
        exact ⟨st, rfl, Or.inr ⟨hwa.trans hdone, hinv⟩⟩
    · have hc' : a.isCancel = false := by simpa using hc
      have hwa : valWorkerActs (as ++ [a]) = valWorkerActs as ++ [a] := by
        rw [valWorkerActs_append]
        simp [valWorkerActs, List.filter, hc']
      have hW : valWorkerActs as ++ [a] <+:
          valBodyList env req ++ [valTerminalAct env req jid now₀] := by
        rw [← hwa, ← runValidationActs_eq_body_terminal]
        exact h
      rcases prefix_concat_cases hW with hmem | ⟨heq, hterm⟩
      · have hbody : isValBodyAct a = true := by
          have hall := valBodyList_all env req
          rw [List.all_eq_true] at hall
          exact hall a hmem
        rcases hdisj with hpre | ⟨hdoneW, _⟩
        · cases a with
          | updateStatus s p =>
            have hs : s = "running" := by
              simpa [isValBodyAct] using hbody
            subst hs
            rw [hfold, hst, applyValUpdate_some]
            refine ⟨_, rfl, Or.inl ⟨?_, hpre.2.1, hpre.2.2⟩⟩
            simp
          | loadDataset =>
            rw [hfold, hst]
            exact ⟨st, rfl, Or.inl hpre⟩
          | loadModelFile =>
            rw [hfold, hst]
            exact ⟨st, rfl, Or.inl hpre⟩
          | complete r => simp [isValBodyAct] at hbody
          | failJob m => simp [isValBodyAct] at hbody
          | cancel => simp [ValAct.isCancel] at hc'
        · exfalso
          have hpref : valWorkerActs as ++ [a] <+: runValidationActs env req jid now₀ := by
            rw [← hwa]
            exact h
          have hlen := hpref.length_le
          rw [hdoneW] at hlen
          simp at hlen
      · subst hterm
        have hpre : PreInvV st := by
          rcases hdisj with hpre | ⟨hdoneW, _⟩
          · exact hpre
          · exfalso
            rw [runValidationActs_eq_body_terminal, heq] at hdoneW
            have := congrArg List.length hdoneW
            simp at this
        have hfull : valWorkerActs (as ++ [valTerminalAct env req jid now₀]) =
            runValidationActs env req jid now₀ := by
          rw [hwa, heq, runValidationActs_eq_body_terminal]
        rcases valTerminalAct_cases env req jid now₀ with hcm | ⟨m, hm⟩
        · rw [hcm] at hfold hfull ⊢
          rw [hfold, hst, applyValComplete_some]
          exact ⟨_, rfl, Or.inr ⟨hfull, Or.inl ⟨rfl, rfl, hpre.2.2⟩⟩⟩
        · rw [hm] at hfold hfull ⊢
          rw [hfold, hst, applyValFail_some]
          refine ⟨_, rfl, Or.inr ⟨hfull, Or.inr ⟨m, rfl, rfl, hpre.2.1, ?_⟩⟩⟩
          rw [runValidationActs_eq_body_terminal, hm]
          simp

/-- Provenance of every `_fail_job` message in a validation trace. -/
theorem valTrace_failJob_msg (env : ValEnv) (req : ValidationRequest) (jid : String)
    (now₀ : ℕ) (m : String) (h : ValAct.failJob m ∈ runValidationActs env req jid now₀) :
    m = "Dataset " ++ req.dataset_id ++ " not found" ∨
    m = "Model " ++ req.model_id ++ " not found" ∨
    env.readError = some m ∨ env.loadError = some m ∨ env.validError = some m := by
  unfold runValidationActs at h
  revert h
  cases env.datasetExists <;> cases env.readError <;> cases env.modelExists <;>
    cases env.loadError <;> cases env.validError <;> intro h <;> simp_all

/-- Hypothesis: the collaborator exception messages are non-empty. -/
def ValMsgsNonempty (env : ValEnv) : Prop :=
  (∀ m, env.readError = some m → m ≠ "") ∧
  (∀ m, env.loadError = some m → m ≠ "") ∧
  (∀ m, env.validError = some m → m ≠ "")

theorem valTrace_failJob_msg_ne_empty (env : ValEnv) (req : ValidationRequest)
    (jid : String) (now₀ : ℕ) (hne : ValMsgsNonempty env) (m : String)
    (h : ValAct.failJob m ∈ runValidationActs env req jid now₀) : m ≠ "" := by
  rcases valTrace_failJob_msg env req jid now₀ m h with hm | hm | hm | hm | hm
  · rw [hm]
    exact TrainingService.string_append_ne_empty_left _
      (TrainingService.string_append_ne_empty_left _ (by decide))
  · rw [hm]
    exact TrainingService.string_append_ne_empty_left _
      (TrainingService.string_append_ne_empty_left _ (by decide))
  · exact hne.1 m hm
  · exact hne.2.1 m hm
  · exact hne.2.2 m hm

end ValidationService

namespace PredictionService

/- ### Shape of the batch-prediction worker trace -/

/-- Non-terminal acts of the batch-prediction worker. -/
def isPredBodyAct : PredAct → Bool
  | .updateStatus s _ => s = "running"
  | .loadDataset => true
  | .loadModelFile => true
  | .setTotal _ => true
  | .setProcessed _ => true
  | _ => false

/-- Every act the chunk loop emits is a `setProcessed` or a `"running"`
progress update. -/
theorem chunkLoop_acts_all (env : PredEnv) (req : BatchPredictionRequest) :
    ∀ s, ((chunkLoop env req s).acts).all isPredBodyAct = true := by
  intro s
  induction s using chunkLoop.induct env req with
  | case1 s h m hm =>
    rw [chunkLoop]
    simp [h, hm]
  | case2 s h hm ih =>
    rw [chunkLoop]
    simp only [dif_pos h, hm]
    simpa [isPredBodyAct] using ih
  | case3 s h =>
    rw [chunkLoop]
    simp [h]

/-- The terminal registry write of one `_run_batch_prediction` execution. -/
def predTerminalAct (env : PredEnv) (req : BatchPredictionRequest)
    (job_id : String) : PredAct :=
  if !env.datasetExists then
    .failJob ("Dataset " ++ req.dataset_id ++ " not found")
  else match env.readError with
  | some m => .failJob m
  | none =>
    if !env.modelExists then
      .failJob ("Model " ++ req.model_id ++ " not found")
    else match env.loadError with
    | some m => .failJob m
    | none => match (chunkLoop env req 0).err with
      | some m => .failJob m
      | none => match env.saveError with
        | some m => .failJob m
        | none =>
          .complete ("outputs/" ++ job_id ++ "_predictions." ++
            (if req.output_format = "json" then "json" else "csv"))

/-- The non-terminal acts of one `_run_batch_prediction` execution, in order. -/
def predBodyList (env : PredEnv) (req : BatchPredictionRequest) : List PredAct :=
  .updateStatus "running" 5 ::
  (if !env.datasetExists then []
   else .loadDataset :: match env.readError with
   | some _ => []
   | none =>
     .setTotal env.n ::
     .updateStatus "running" 10 ::
     (if !env.modelExists then []
      else .loadModelFile :: match env.loadError with
      | some _ => []
      | none => .updateStatus "running" 20 :: (chunkLoop env req 0).acts))

theorem runBatchActs_eq_body_terminal (env : PredEnv) (req : BatchPredictionRequest)
    (jid : String) :
    runBatchActs env req jid = predBodyList env req ++ [predTerminalAct env req jid] := by
  unfold runBatchActs runBatchPrediction predBodyList predTerminalAct
  cases env.datasetExists <;> cases env.readError <;> cases env.modelExists <;>
    cases env.loadError <;> cases (chunkLoop env req 0).err <;>
    cases env.saveError <;> simp

theorem predBodyList_all (env : PredEnv) (req : BatchPredictionRequest) :
    (predBodyList env req).all isPredBodyAct = true := by
  unfold predBodyList
  cases env.datasetExists <;> cases env.readError <;> cases env.modelExists <;>
    cases env.loadError <;> simp [chunkLoop_acts_all, isPredBodyAct]

theorem predTerminalAct_cases (env : PredEnv) (req : BatchPredictionRequest)
    (jid : String) :
    predTerminalAct env req jid =
      .complete ("outputs/" ++ jid ++ "_predictions." ++
        (if req.output_format = "json" then "json" else "csv")) ∨
    ∃ m, predTerminalAct env req jid = .failJob m := by
  unfold predTerminalAct
  cases env.datasetExists <;> cases env.readError <;> cases env.modelExists <;>
    cases env.loadError <;> cases (chunkLoop env req 0).err <;>
    cases env.saveError <;> simp

/- ### Registry fold helpers (prediction) -/

theorem predWorkerActs_append (l l' : List PredAct) :
    predWorkerActs (l ++ l') = predWorkerActs l ++ predWorkerActs l' := by
  unfold predWorkerActs
  simp

theorem runPred_concat (jid : String) (req : BatchPredictionRequest)
    (acts : List PredAct) (a : PredAct) :
    runPred jid req (acts ++ [a]) =
      ((runPred jid req acts).1 + 1,
        applyPredAct (runPred jid req acts).1 a (runPred jid req acts).2) := by
  unfold runPred
  rw [List.foldl_append]
  rfl

theorem applyPredUpdate_some (now : ℕ) (s : String) (p : ℚ) (st : PredictionJob) :
    applyPredAct now (.updateStatus s p) (some st) =
      some { st with status := s, progress := p } := rfl

theorem applyPredSetTotal_some (now : ℕ) (t : ℕ) (st : PredictionJob) :
    applyPredAct now (.setTotal t) (some st) =
      some { st with total_records := t } := rfl

theorem applyPredSetProcessed_some (now : ℕ) (pr : ℕ) (st : PredictionJob) :
    applyPredAct now (.setProcessed pr) (some st) =
      some { st with processed_records := pr } := rfl

theorem applyPredComplete_some (now : ℕ) (out : String) (st : PredictionJob) :
    applyPredAct now (.complete out) (some st) =
      some { st with status := "completed", progress := 100,
                     output_path := some out, completed_at := some now } := rfl

theorem applyPredFail_some (now : ℕ) (m : String) (st : PredictionJob) :
    applyPredAct now (.failJob m) (some st) =
      some { st with status := "failed", error_message := some m,
                     completed_at := some now } := rfl

theorem applyPredCancel_active (now : ℕ) (st : PredictionJob)
    (hq : st.status ∈ (["queued", "running"] : List String)) :
    applyPredAct now .cancel (some st) =
      some { st with status := "cancelled", completed_at := some now } := by
  simp [applyPredAct, cancelPredictionJob, hq]

theorem applyPredCancel_noop (now : ℕ) (st : PredictionJob)
    (hq : st.status ∉ (["queued", "running"] : List String)) :
    applyPredAct now .cancel (some st) = some st := by
  simp [applyPredAct, cancelPredictionJob, hq]

/-- Invariant of a batch-prediction job record before the worker's terminal
write. -/
def PreInvP (st : PredictionJob) : Prop :=
  st.status ∈ (["queued", "running", "cancelled"] : List String) ∧
  st.output_path = none ∧ st.error_message = none

/-- Invariant of a batch-prediction job record after the worker's terminal
write. -/
def DoneInvP (env : PredEnv) (req : BatchPredictionRequest) (jid : String)
    (st : PredictionJob) : Prop :=
  (st.status = "completed" ∧
    st.output_path = some ("outputs/" ++ jid ++ "_predictions." ++
      (if req.output_format = "json" then "json" else "csv")) ∧
    st.error_message = none) ∨
  (∃ m, st.status = "failed" ∧ st.error_message = some m ∧ st.output_path = none ∧
    PredAct.failJob m ∈ runBatchActs env req jid)

/-- Master invariant of the batch-prediction job state machine. -/
theorem predMaster (env : PredEnv) (req : BatchPredictionRequest) (jid : String) :
    ∀ acts, PredRun env req jid acts →
    ∃ st, (runPred jid req acts).2 = some st ∧
      (PreInvP st ∨
        (predWorkerActs acts = runBatchActs env req jid ∧ DoneInvP env req jid st)) := by
  intro acts
  induction acts using List.reverseRecOn with
  | nil =>
    intro _
    refine ⟨initialPredictionJob jid req, rfl, Or.inl ⟨?_, rfl, rfl⟩⟩
    simp [initialPredictionJob]
  | append_singleton as a ih =>
    intro h
    have hrunAs : PredRun env req jid as := by
      unfold PredRun at h ⊢
      rw [predWorkerActs_append] at h
      exact (List.prefix_append _ _).trans h
    obtain ⟨st, hst, hdisj⟩ := ih hrunAs
    have hfold : (runPred jid req (as ++ [a])).2 =
        applyPredAct (runPred jid req as).1 a (runPred jid req as).2 := by
      rw [runPred_concat]
    by_cases hc : a.isCancel = true
    · have ha : a = .cancel := by
        cases a <;> simp_all [PredAct.isCancel]
      subst ha
      have hwa : predWorkerActs (as ++ [PredAct.cancel]) = predWorkerActs as := by
        rw [predWorkerActs_append]
        simp [predWorkerActs, PredAct.isCancel]
      rcases hdisj with hpre | ⟨hdone, hinv⟩
      · by_cases hq : st.status ∈ (["queued", "running"] : List String)
        · rw [hfold, hst, applyPredCancel_active _ _ hq]
          refine ⟨_, rfl, Or.inl ⟨?_, hpre.2.1, hpre.2.2⟩⟩
          simp
        · rw [hfold, hst, applyPredCancel_noop _ _ hq]
          exact ⟨st, rfl, Or.inl hpre⟩
      · have hq : st.status ∉ (["queued", "running"] : List String) := by
          rcases hinv with ⟨hs, _⟩ | ⟨m, hs, _⟩ <;> rw [hs] <;> decide
        rw [hfold, hst, applyPredCancel_noop _ _ hq]
        exact ⟨st, rfl, Or.inr ⟨hwa.trans hdone, hinv⟩⟩
    · have hc' : a.isCancel = false := by simpa using hc
      have hwa : predWorkerActs (as ++ [a]) = predWorkerActs as ++ [a] := by
        rw [predWorkerActs_append]
        simp [predWorkerActs, List.filter, hc']
      have hW : predWorkerActs as ++ [a] <+:
          predBodyList env req ++ [predTerminalAct env req jid] := by
        rw [← hwa, ← runBatchActs_eq_body_terminal]
        exact h
      rcases prefix_concat_cases hW with hmem | ⟨heq, hterm⟩
      · have hbody : isPredBodyAct a = true := by
          have hall := predBodyList_all env req
          rw [List.all_eq_true] at hall
          exact hall a hmem
        rcases hdisj with hpre | ⟨hdoneW, _⟩
        · cases a with
          | updateStatus s p =>
            have hs : s = "running" := by
              simpa [isPredBodyAct] using hbody
            subst hs
            rw [hfold, hst, applyPredUpdate_some]
            refine ⟨_, rfl, Or.inl ⟨?_, hpre.2.1, hpre.2.2⟩⟩
            simp
          | loadDataset =>
            rw [hfold, hst]
            exact ⟨st, rfl, Or.inl hpre⟩
          | loadModelFile =>
            rw [hfold, hst]
            exact ⟨st, rfl, Or.inl hpre⟩
          | setTotal t =>
            rw [hfold, hst, applyPredSetTotal_some]
            exact ⟨_, rfl, Or.inl ⟨hpre.1, hpre.2.1, hpre.2.2⟩⟩
          | setProcessed pr =>
            rw [hfold, hst, applyPredSetProcessed_some]
            exact ⟨_, rfl, Or.inl ⟨hpre.1, hpre.2.1, hpre.2.2⟩⟩
          | complete out => simp [isPredBodyAct] at hbody
          | failJob m => simp [isPredBodyAct] at hbody
          | cancel => simp [PredAct.isCancel] at hc'
        · exfalso
          have hpref : predWorkerActs as ++ [a] <+: runBatchActs env req jid := by
            rw [← hwa]
            exact h
          have hlen := hpref.length_le
          rw [hdoneW] at hlen
          simp at hlen
      · subst hterm
        have hpre : PreInvP st := by
          rcases hdisj with hpre | ⟨hdoneW, _⟩
          · exact hpre
          · exfalso
            rw [runBatchActs_eq_body_terminal, heq] at hdoneW
            have := congrArg List.length hdoneW
            simp at this
        have hfull : predWorkerActs (as ++ [predTerminalAct env req jid]) =
            runBatchActs env req jid := by
          rw [hwa, heq, runBatchActs_eq_body_terminal]
        rcases predTerminalAct_cases env req jid with hcm | ⟨m, hm⟩
        · rw [hcm] at hfold hfull ⊢
          rw [hfold, hst, applyPredComplete_some]
          exact ⟨_, rfl, Or.inr ⟨hfull, Or.inl ⟨rfl, rfl, hpre.2.2⟩⟩⟩
        · rw [hm] at hfold hfull ⊢
          rw [hfold, hst, applyPredFail_some]
          refine ⟨_, rfl, Or.inr ⟨hfull, Or.inr ⟨m, rfl, rfl, hpre.2.1, ?_⟩⟩⟩
          rw [runBatchActs_eq_body_terminal, hm]
          simp

end PredictionService

namespace PredictionService

/- ### Progress and counter writes (prediction) -/

/-- Progress values a list of prediction acts writes (`_update_job_status`
writes its argument, the completion block writes `100.0`). -/
def predProgressWrites (acts : List PredAct) : List ℚ :=
  acts.filterMap fun a =>
    match a with
    | .updateStatus _ p => some p
    | .complete _ => some (100 : ℚ)
    | _ => none

/-- `processed_records` values a list of prediction acts writes. -/
def predProcessedWrites (acts : List PredAct) : List ℕ :=
  acts.filterMap fun a =>
    match a with
    | .setProcessed k => some k
    | _ => none

theorem predProgressWrites_append (l l' : List PredAct) :
    predProgressWrites (l ++ l') = predProgressWrites l ++ predProgressWrites l' := by
  unfold predProgressWrites
  rw [List.filterMap_append]

theorem predProcessedWrites_append (l l' : List PredAct) :
    predProcessedWrites (l ++ l') = predProcessedWrites l ++ predProcessedWrites l' := by
  unfold predProcessedWrites
  rw [List.filterMap_append]

theorem predProgressWrites_workerActs (acts : List PredAct) :
    predProgressWrites (predWorkerActs acts) = predProgressWrites acts := by
  induction acts with
  | nil => rfl
  | cons a l ih =>
    cases a <;>
      simp_all [predWorkerActs, predProgressWrites, PredAct.isCancel, List.filter_cons]

/-- Progress values written by the chunk loop: each lies between the chunk
checkpoint at the loop's current position and `80`, and they are
non-decreasing. -/
theorem chunkLoop_progress_spec (env : PredEnv) (req : BatchPredictionRequest) :
    ∀ s,
      (∀ p ∈ predProgressWrites (chunkLoop env req s).acts,
        20 + ((min (s + 1000) env.n : ℕ) : ℚ) / (env.n : ℚ) * 60 ≤ p ∧ p ≤ 80) ∧
      List.Chain' (· ≤ ·) (predProgressWrites (chunkLoop env req s).acts) := by
  intro s
  induction s using chunkLoop.induct env req with
  | case1 s h m hm =>
    rw [chunkLoop]
    simp [h, hm, predProgressWrites]
  | case2 s h hm ih =>
    have hn : (0 : ℚ) < (env.n : ℚ) := by
      exact_mod_cast Nat.zero_lt_of_lt h
    have hmin_le : ((min (s + 1000) env.n : ℕ) : ℚ) ≤ (env.n : ℚ) := by
      exact_mod_cast Nat.min_le_right _ _
    have hmin_nonneg : (0 : ℚ) ≤ ((min (s + 1000) env.n : ℕ) : ℚ) := by positivity
    have hval_le80 :
        20 + ((min (s + 1000) env.n : ℕ) : ℚ) / (env.n : ℚ) * 60 ≤ 80 := by
      have hdiv : ((min (s + 1000) env.n : ℕ) : ℚ) / (env.n : ℚ) ≤ 1 := by
        rw [div_le_one hn]
        exact hmin_le
      nlinarith
    have hmono :
        20 + ((min (s + 1000) env.n : ℕ) : ℚ) / (env.n : ℚ) * 60 ≤
          20 + ((min (s + 1000 + 1000) env.n : ℕ) : ℚ) / (env.n : ℚ) * 60 := by
      have hmm : ((min (s + 1000) env.n : ℕ) : ℚ) ≤
          ((min (s + 1000 + 1000) env.n : ℕ) : ℚ) := by
        exact_mod_cast min_le_min (by omega) (le_refl env.n)
      have := div_le_div_of_nonneg_right hmm hn.le
      nlinarith
    rw [chunkLoop]
    simp only [dif_pos h, hm]
    have hcons : predProgressWrites
        (PredAct.setProcessed (min (s + 1000) env.n) ::
          PredAct.updateStatus "running"
            (20 + ((min (s + 1000) env.n : ℕ) : ℚ) / (env.n : ℚ) * 60) ::
          (chunkLoop env req (s + 1000)).acts) =
        (20 + ((min (s + 1000) env.n : ℕ) : ℚ) / (env.n : ℚ) * 60) ::
          predProgressWrites (chunkLoop env req (s + 1000)).acts := by
      simp [predProgressWrites]
    rw [hcons]
    constructor
    · intro p hp
      rcases List.mem_cons.1 hp with rfl | hp
      · exact ⟨le_refl _, hval_le80⟩
      · have hbd := ih.1 p hp
        exact ⟨le_trans hmono hbd.1, hbd.2⟩
    · rw [List.chain'_cons']
      refine ⟨?_, ih.2⟩
      intro b hb
      have hbmem : b ∈ predProgressWrites (chunkLoop env req (s + 1000)).acts :=
        List.mem_of_mem_head? hb
      exact le_trans hmono (ih.1 b hbmem).1
  | case3 s h =>
    rw [chunkLoop]
    simp [h, predProgressWrites]

/-- If no chunk raises, the chunk loop does not abort. -/
theorem chunkLoop_err_none (env : PredEnv) (req : BatchPredictionRequest)
    (hok : ∀ i, env.chunkPredError i = none) :
    ∀ s, (chunkLoop env req s).err = none := by
  intro s
  induction s using chunkLoop.induct env req with
  | case1 s h m hm => rw [hok s] at hm; exact absurd hm (by simp)
  | case2 s h hm ih =>
    rw [chunkLoop]
    simp only [dif_pos h, hm]
    exact ih
  | case3 s h =>
    rw [chunkLoop]
    simp [h]

/-- If no chunk raises, the loop accumulates exactly one prediction per
remaining record. -/
theorem chunkLoop_preds_length (env : PredEnv) (req : BatchPredictionRequest)
    (hok : ∀ i, env.chunkPredError i = none) :
    ∀ s, (chunkLoop env req s).preds.length = env.n - s := by
  intro s
  induction s using chunkLoop.induct env req with
  | case1 s h m hm => rw [hok s] at hm; exact absurd hm (by simp)
  | case2 s h hm ih =>
    rw [chunkLoop]
    simp only [dif_pos h, hm]
    simp only [List.length_append, List.length_map, List.length_range, ih]
    omega
  | case3 s h =>
    rw [chunkLoop]
    simp only [dif_neg h]
    simp
    omega

/-- If no chunk raises, the `processed_records` checkpoints the loop writes
from position `s` are `min(s+1000, N), min(s+2000, N), …`. -/
theorem chunkLoop_processed (env : PredEnv) (req : BatchPredictionRequest)
    (hok : ∀ i, env.chunkPredError i = none) :
    ∀ s, predProcessedWrites (chunkLoop env req s).acts =
      (List.range ((env.n - s + 999) / 1000)).map
        (fun k => min (s + (k + 1) * 1000) env.n) := by
  intro s
  induction s using chunkLoop.induct env req with
  | case1 s h m hm => rw [hok s] at hm; exact absurd hm (by simp)
  | case2 s h hm ih =>
    rw [chunkLoop]
    simp only [dif_pos h, hm]
    have hK : (env.n - s + 999) / 1000 = (env.n - (s + 1000) + 999) / 1000 + 1 := by
      omega
    rw [hK, List.range_succ_eq_map]
    have hcons : predProcessedWrites
        (PredAct.setProcessed (min (s + 1000) env.n) ::
          PredAct.updateStatus "running"
            (20 + ((min (s + 1000) env.n : ℕ) : ℚ) / (env.n : ℚ) * 60) ::
          (chunkLoop env req (s + 1000)).acts) =
        min (s + 1000) env.n :: predProcessedWrites (chunkLoop env req (s + 1000)).acts := by
      simp [predProcessedWrites]
    rw [hcons, ih]
    simp only [List.map_cons, List.map_map]
    congr 1
    exact List.map_congr_left (by
      intro k hk
      show (s + 1000 + (k + 1) * 1000) ⊓ env.n = (s + (k + 1 + 1) * 1000) ⊓ env.n
      congr 1
      omega)
  | case3 s h =>
    rw [chunkLoop]
    simp only [dif_neg h]
    have : (env.n - s + 999) / 1000 = 0 := by omega
    simp [this, predProcessedWrites]

end PredictionService

/-- Specification-side description of the batch-prediction `processed_records`
checkpoints for an `N`-row dataset and chunk size `1000`, exactly as the claim
words them: `min(1000, N), min(2000, N), …` up to the last chunk. -/
def batchCheckpoints (N : ℕ) : List ℕ :=
  (List.range ((N + 999) / 1000)).map (fun k => min ((k + 1) * 1000) N)

/-- The checkpoint list ends at exactly `N` for a non-empty dataset. -/
theorem batchCheckpoints_getLast (N : ℕ) (h : 0 < N) :
    (batchCheckpoints N).getLast? = some N := by
  unfold batchCheckpoints
  have hK : (N + 999) / 1000 = ((N + 999) / 1000 - 1) + 1 := by omega
  rw [hK, List.range_succ, List.map_append]
  simp only [List.map_singleton]
  rw [List.getLast?_concat]
  congr 1
  have : ((N + 999) / 1000 - 1 + 1) * 1000 ≥ N := by omega
  omega

namespace PredictionService

/-- With all collaborators succeeding, the `processed_records` checkpoints the
whole batch-prediction trace writes are exactly the claim's checkpoint list. -/
theorem predProcessedWrites_trace (env : PredEnv) (req : BatchPredictionRequest)
    (jid : String) (hds : env.datasetExists = true) (hre : env.readError = none)
    (hme : env.modelExists = true) (hle : env.loadError = none)
    (hok : ∀ i, env.chunkPredError i = none) (hse : env.saveError = none) :
    predProcessedWrites (runBatchActs env req jid) = batchCheckpoints env.n := by
  unfold runBatchActs runBatchPrediction
  rw [chunkLoop_err_none env req hok 0]
  simp only [hds, hre, hme, hle, hse]
  simp only [Bool.not_true, Bool.false_eq_true, if_false]
  rw [predProcessedWrites]
  simp only [List.filterMap_cons]
  rw [← predProcessedWrites]
  rw [predProcessedWrites_append, chunkLoop_processed env req hok 0]
  unfold batchCheckpoints
  simp [predProcessedWrites]

theorem ppw_nil : predProgressWrites [] = [] := rfl

theorem ppw_update (s : String) (p : ℚ) (l : List PredAct) :
    predProgressWrites (.updateStatus s p :: l) = p :: predProgressWrites l := rfl

theorem ppw_loadDataset (l : List PredAct) :
    predProgressWrites (.loadDataset :: l) = predProgressWrites l := rfl

theorem ppw_loadModelFile (l : List PredAct) :
    predProgressWrites (.loadModelFile :: l) = predProgressWrites l := rfl

theorem ppw_setTotal (t : ℕ) (l : List PredAct) :
    predProgressWrites (.setTotal t :: l) = predProgressWrites l := rfl

theorem ppw_setProcessed (k : ℕ) (l : List PredAct) :
    predProgressWrites (.setProcessed k :: l) = predProgressWrites l := rfl

theorem ppw_complete (o : String) (l : List PredAct) :
    predProgressWrites (.complete o :: l) = 100 :: predProgressWrites l := rfl

theorem ppw_failJob (m : String) (l : List PredAct) :
    predProgressWrites (.failJob m :: l) = predProgressWrites l := rfl

/-- The progress values written over a whole batch-prediction execution are
non-decreasing. -/
theorem predProgressWrites_trace_chain (env : PredEnv) (req : BatchPredictionRequest)
    (jid : String) :
    List.Chain' (· ≤ ·) (predProgressWrites (runBatchActs env req jid)) := by
  have hchunk := chunkLoop_progress_spec env req 0
  have h2080 : ∀ b ∈ predProgressWrites (chunkLoop env req 0).acts, 20 ≤ b ∧ b ≤ 80 := by
    intro b hb
    have hb' := hchunk.1 b hb
    have hnn : (0 : ℚ) ≤ ((min (0 + 1000) env.n : ℕ) : ℚ) / (env.n : ℚ) * 60 := by
      positivity
    exact ⟨by linarith [hb'.1], hb'.2⟩
  have hL : List.Chain' (· ≤ ·)
      ((5 : ℚ) :: 10 :: 20 :: (predProgressWrites (chunkLoop env req 0).acts ++ [100])) := by
    rw [List.chain'_cons']
    refine ⟨by intro b hb; simp at hb; subst hb; norm_num, ?_⟩
    rw [List.chain'_cons']
    refine ⟨by intro b hb; simp at hb; subst hb; norm_num, ?_⟩
    rw [List.chain'_cons']
    constructor
    · intro b hb
      have hbm := List.mem_of_mem_head? hb
      rcases List.mem_append.1 hbm with hbc | hbo
      · exact (h2080 b hbc).1
      · simp at hbo
        subst hbo
        norm_num
    · rw [List.chain'_append]
      refine ⟨hchunk.2, List.chain'_singleton _, ?_⟩
      intro x hx y hy
      simp at hy
      subst hy
      have hxm := List.mem_of_mem_getLast? hx
      linarith [(h2080 x hxm).2]
  have hpre : predProgressWrites (runBatchActs env req jid) <+:
      ((5 : ℚ) :: 10 :: 20 :: (predProgressWrites (chunkLoop env req 0).acts ++ [100])) := by
    unfold runBatchActs runBatchPrediction
    cases env.datasetExists <;> cases env.readError <;> cases env.modelExists <;>
      cases env.loadError <;> cases herr : (chunkLoop env req 0).err <;>
      cases env.saveError <;>
      simp only [Bool.not_true, Bool.not_false, if_true, if_false, ite_true, ite_false,
        ppw_nil, ppw_update, ppw_loadDataset, ppw_loadModelFile, ppw_setTotal,
        ppw_setProcessed, ppw_complete, ppw_failJob, predProgressWrites_append] <;>
      first
        | exact ⟨_, rfl⟩
        | (refine ⟨[100], ?_⟩
           simp [ppw_nil, ppw_update, ppw_loadDataset, ppw_loadModelFile, ppw_setTotal,
             ppw_setProcessed, ppw_complete, ppw_failJob, predProgressWrites_append]
           done)
        | (refine ⟨[], ?_⟩
           simp [ppw_nil, ppw_update, ppw_loadDataset, ppw_loadModelFile, ppw_setTotal,
             ppw_setProcessed, ppw_complete, ppw_failJob, predProgressWrites_append]
           done)
  exact hL.sublist hpre.sublist

end PredictionService

namespace PredictionService

theorem predCancelOnlyFold (ext : List PredAct) :
    ∀ (c : ℕ) (st : PredictionJob), (∀ a ∈ ext, a.isCancel = true) →
    st.status ∉ (["queued", "running"] : List String) →
    (ext.foldl (fun s a => (s.1 + 1, applyPredAct s.1 a s.2)) (c, some st)).2 = some st := by
  induction ext with
  | nil => intro c st _ _; rfl
  | cons a l ih =>
    intro c st hall hq
    have ha : a = .cancel := by
      have := hall a (by simp)
      cases a <;> simp_all [PredAct.isCancel]
    subst ha
    simp only [List.foldl_cons]
    rw [applyPredCancel_noop c st hq]
    exact ih (c + 1) st (fun b hb => hall b (by simp [hb])) hq

/-- Once a batch-prediction job record is `"completed"` or `"failed"`, any
further history leaves the record unchanged. -/
theorem predTerminal_persists (env : PredEnv) (req : BatchPredictionRequest)
    (jid : String) (acts ext : List PredAct) (h : PredRun env req jid (acts ++ ext))
    (st : PredictionJob) (hst : (runPred jid req acts).2 = some st)
    (hterm : st.status = "completed" ∨ st.status = "failed") :
    (runPred jid req (acts ++ ext)).2 = some st := by
  have hrunActs : PredRun env req jid acts := by
    unfold PredRun at h ⊢
    rw [predWorkerActs_append] at h
    exact (List.prefix_append _ _).trans h
  obtain ⟨st', hst', hdisj⟩ := predMaster env req jid acts hrunActs
  have hss : st' = st := by
    rw [hst] at hst'
    exact (Option.some_inj.1 hst').symm
  rw [hss] at hdisj
  rcases hdisj with hpre | ⟨hwEq, _⟩
  · exfalso
    have h1 := hpre.1
    rcases hterm with hs | hs <;> rw [hs] at h1 <;> exact absurd h1 (by decide)
  · have hextNil : predWorkerActs ext = [] := by
      unfold PredRun at h
      rw [predWorkerActs_append, hwEq] at h
      have hlen := h.length_le
      rw [List.length_append] at hlen
      have : (predWorkerActs ext).length = 0 := by omega
      exact List.length_eq_zero.1 this
    have hall : ∀ a ∈ ext, a.isCancel = true := by
      intro a haMem
      have := List.filter_eq_nil_iff.1 hextNil a haMem
      simpa using this
    have hq : st.status ∉ (["queued", "running"] : List String) := by
      rcases hterm with hs | hs <;> rw [hs] <;> decide
    unfold runPred
    rw [List.foldl_append]
    have hpair : (List.foldl (fun s a => (s.1 + 1, applyPredAct s.1 a s.2))
        (0, some (initialPredictionJob jid req)) acts) =
        ((runPred jid req acts).1, some st) := by
      rw [← hst]
      rfl
    rw [hpair]
    exact predCancelOnlyFold ext (runPred jid req acts).1 st hall hq

end PredictionService

namespace ValidationService

theorem valCancelOnlyFold (ext : List ValAct) :
    ∀ (c : ℕ) (st : ValidationJob), (∀ a ∈ ext, a.isCancel = true) →
    st.status ∉ (["queued", "running"] : List String) →
    (ext.foldl (fun s a => (s.1 + 1, applyValAct s.1 a s.2)) (c, some st)).2 = some st := by
  induction ext with
  | nil => intro c st _ _; rfl
  | cons a l ih =>
    intro c st hall hq
    have ha : a = .cancel := by
      have := hall a (by simp)
      cases a <;> simp_all [ValAct.isCancel]
    subst ha
    simp only [List.foldl_cons]
    rw [applyValCancel_noop c st hq]
    exact ih (c + 1) st (fun b hb => hall b (by simp [hb])) hq

/-- Once a validation job record is `"completed"` or `"failed"`, any further
history leaves the record unchanged. -/
theorem valTerminal_persists (env : ValEnv) (req : ValidationRequest) (jid : String)
    (now₀ : ℕ) (acts ext : List ValAct) (h : ValRun env req jid now₀ (acts ++ ext))
    (st : ValidationJob) (hst : (runVal jid req acts).2 = some st)
    (hterm : st.status = "completed" ∨ st.status = "failed") :
    (runVal jid req (acts ++ ext)).2 = some st := by
  have hrunActs : ValRun env req jid now₀ acts := by
    unfold ValRun at h ⊢
    rw [valWorkerActs_append] at h
    exact (List.prefix_append _ _).trans h
  obtain ⟨st', hst', hdisj⟩ := valMaster env req jid now₀ acts hrunActs
  have hss : st' = st := by
    rw [hst] at hst'
    exact (Option.some_inj.1 hst').symm
  rw [hss] at hdisj
  rcases hdisj with hpre | ⟨hwEq, _⟩
  · exfalso
    have h1 := hpre.1
    rcases hterm with hs | hs <;> rw [hs] at h1 <;> exact absurd h1 (by decide)
  · have hextNil : valWorkerActs ext = [] := by
      unfold ValRun at h
      rw [valWorkerActs_append, hwEq] at h
      have hlen := h.length_le
      rw [List.length_append] at hlen
      have : (valWorkerActs ext).length = 0 := by omega
      exact List.length_eq_zero.1 this
    have hall : ∀ a ∈ ext, a.isCancel = true := by
      intro a haMem
      have := List.filter_eq_nil_iff.1 hextNil a haMem
      simpa using this
    have hq : st.status ∉ (["queued", "running"] : List String) := by
      rcases hterm with hs | hs <;> rw [hs] <;> decide
    unfold runVal
    rw [List.foldl_append]
    have hpair : (List.foldl (fun s a => (s.1 + 1, applyValAct s.1 a s.2))
        (0, some (initialValidationJob jid req)) acts) =
        ((runVal jid req acts).1, some st) := by
      rw [← hst]
      rfl
    rw [hpair]
    exact valCancelOnlyFold ext (runVal jid req acts).1 st hall hq

end ValidationService

namespace ValidationService

/- ### Best-model selection fold -/

theorem pickBest_lookup_none (hb : Bool) (crit : String) (acc : Option (String × ℚ))
    (p : String × Metrics) (h : p.2.lookup crit = none) :
    pickBest hb crit acc p = acc := by
  simp [pickBest, h]

theorem pickBest_lookup_some_none (hb : Bool) (crit : String) (p : String × Metrics)
    (t : ℚ) (h : p.2.lookup crit = some t) :
    pickBest hb crit none p = some (p.1, t) := by
  simp [pickBest, h]

theorem pickBest_lookup_some_some (hb : Bool) (crit : String) (b : String) (bs : ℚ)
    (p : String × Metrics) (t : ℚ) (h : p.2.lookup crit = some t) :
    pickBest hb crit (some (b, bs)) p =
      if (if hb then bs < t else t < bs) then some (p.1, t) else some (b, bs) := by
  simp [pickBest, h]

/-- The selection fold yields no winner iff it started with none and no
candidate has a usable score. -/
theorem pickBest_fold_none (hb : Bool) (crit : String) :
    ∀ (results : List (String × Metrics)) (acc : Option (String × ℚ)),
    results.foldl (pickBest hb crit) acc = none ↔
      (acc = none ∧ ∀ p ∈ results, p.2.lookup crit = none) := by
  intro results
  induction results with
  | nil => intro acc; simp
  | cons p rest ih =>
    intro acc
    rw [List.foldl_cons, ih]
    cases hl : p.2.lookup crit with
    | none =>
      rw [pickBest_lookup_none hb crit acc p hl]
      constructor
      · rintro ⟨h1, h2⟩
        exact ⟨h1, by
          intro q hq
          rcases List.mem_cons.1 hq with rfl | hq
          · exact hl
          · exact h2 q hq⟩
      · rintro ⟨h1, h2⟩
        exact ⟨h1, fun q hq => h2 q (List.mem_cons_of_mem _ hq)⟩
    | some t =>
      cases acc with
      | none =>
        rw [pickBest_lookup_some_none hb crit p t hl]
        constructor
        · rintro ⟨h1, _⟩
          exact absurd h1 (by simp)
        · rintro ⟨_, h2⟩
          exact absurd (h2 p (by simp)) (by simp [hl])
      | some b =>
        rw [pickBest_lookup_some_some hb crit b.1 b.2 p t hl]
        constructor
        · rintro ⟨h1, _⟩
          split_ifs at h1 <;> simp_all
        · rintro ⟨h1, _⟩
          exact absurd h1 (by simp)

/-- Any winner of the selection fold is the accumulator or a candidate with a
usable score for the criterion. -/
theorem pickBest_fold_mem (hb : Bool) (crit : String) :
    ∀ (results : List (String × Metrics)) (acc : Option (String × ℚ)) (id : String) (s : ℚ),
    results.foldl (pickBest hb crit) acc = some (id, s) →
    acc = some (id, s) ∨ ∃ ms, (id, ms) ∈ results ∧ ms.lookup crit = some s := by
  intro results
  induction results with
  | nil =>
    intro acc id s h
    exact Or.inl h
  | cons p rest ih =>
    intro acc id s h
    rw [List.foldl_cons] at h
    rcases ih _ id s h with hacc | ⟨ms, hmem, hms⟩
    · cases hl : p.2.lookup crit with
      | none =>
        rw [pickBest_lookup_none hb crit acc p hl] at hacc
        exact Or.inl hacc
      | some t =>
        cases acc with
        | none =>
          rw [pickBest_lookup_some_none hb crit p t hl] at hacc
          have h1 : p.1 = id ∧ t = s := by
            have := Option.some_inj.1 hacc
            exact ⟨congrArg Prod.fst this, congrArg Prod.snd this⟩
          right
          refine ⟨p.2, ?_, by rw [hl, h1.2]⟩
          rw [← h1.1]
          simp
        | some b =>
          rw [pickBest_lookup_some_some hb crit b.1 b.2 p t hl] at hacc
          by_cases hc : (if hb then b.2 < t else t < b.2)
          · rw [if_pos hc] at hacc
            have h1 : p.1 = id ∧ t = s := by
              have := Option.some_inj.1 hacc
              exact ⟨congrArg Prod.fst this, congrArg Prod.snd this⟩
            right
            refine ⟨p.2, ?_, by rw [hl, h1.2]⟩
            rw [← h1.1]
            simp
          · rw [if_neg hc] at hacc
            exact Or.inl hacc
    · exact Or.inr ⟨ms, List.mem_cons_of_mem _ hmem, hms⟩

/-- Any winner of the selection fold dominates the accumulator and every
candidate's usable score, in the criterion's direction. -/
theorem pickBest_fold_dom (hb : Bool) (crit : String) :
    ∀ (results : List (String × Metrics)) (acc : Option (String × ℚ)) (id : String) (s : ℚ),
    results.foldl (pickBest hb crit) acc = some (id, s) →
    (∀ bid bs, acc = some (bid, bs) → (if hb then bs ≤ s else s ≤ bs)) ∧
    (∀ id' ms' s', (id', ms') ∈ results → ms'.lookup crit = some s' →
      (if hb then s' ≤ s else s ≤ s')) := by
  intro results
  induction results with
  | nil =>
    intro acc id s h
    constructor
    · intro bid bs hacc
      rw [hacc] at h
      have h1 : bs = s := congrArg Prod.snd (Option.some_inj.1 h)
      rw [h1]
      cases hb <;> simp
    · intro id' ms' s' hmem
      exact absurd hmem (List.not_mem_nil _)
  | cons p rest ih =>
    intro acc id s h
    rw [List.foldl_cons] at h
    obtain ⟨ihAcc, ihMem⟩ := ih _ id s h
    cases hl : p.2.lookup crit with
    | none =>
      rw [pickBest_lookup_none hb crit acc p hl] at ihAcc
      refine ⟨ihAcc, ?_⟩
      intro id' ms' s' hmem hms
      rcases List.mem_cons.1 hmem with heq | hmem'
      · have : ms' = p.2 := congrArg Prod.snd heq
        rw [this, hl] at hms
        exact absurd hms (by simp)
      · exact ihMem id' ms' s' hmem' hms
    | some t =>
      have hts : (if hb then t ≤ s else s ≤ t) := by
        cases acc with
        | none =>
          rw [pickBest_lookup_some_none hb crit p t hl] at ihAcc
          exact ihAcc p.1 t rfl
        | some b =>
          rw [pickBest_lookup_some_some hb crit b.1 b.2 p t hl] at ihAcc
          by_cases hcmp : (if hb then b.2 < t else t < b.2)
          · rw [if_pos hcmp] at ihAcc
            exact ihAcc p.1 t rfl
          · rw [if_neg hcmp] at ihAcc
            have hbs := ihAcc b.1 b.2 rfl
            cases hb <;> simp_all <;> linarith
      constructor
      · intro bid bs hacc
        cases acc with
        | none => exact absurd hacc (by simp)
        | some b =>
          have hb2 : b = (bid, bs) := Option.some_inj.1 hacc
          subst hb2
          rw [pickBest_lookup_some_some hb crit bid bs p t hl] at ihAcc
          by_cases hcmp : (if hb then bs < t else t < bs)
          · rw [if_pos hcmp] at ihAcc
            have hpt := ihAcc p.1 t rfl
            cases hb <;> simp_all <;> linarith
          · rw [if_neg hcmp] at ihAcc
            exact ihAcc bid bs rfl
      · intro id' ms' s' hmem hms
        rcases List.mem_cons.1 hmem with heq | hmem'
        · have : ms' = p.2 := congrArg Prod.snd heq
          rw [this, hl] at hms
          have hst : t = s' := Option.some_inj.1 hms
          rw [← hst]
          exact hts
        · exact ihMem id' ms' s' hmem' hms

/-- The result dictionary of `compare_models` has exactly the candidates that
evaluated successfully, in order. -/
theorem compareModels_metrics_ids (model_ids : List String) (ds : String)
    (evalModel : String → Option Metrics) (crit : String) :
    (compareModels model_ids ds evalModel crit).metrics.map Prod.fst =
      model_ids.filter (fun id => (evalModel id).isSome) := by
  unfold compareModels
  induction model_ids with
  | nil => simp
  | cons id rest ih =>
    cases h : evalModel id <;> simp_all [List.filterMap_cons, List.filter_cons]

end ValidationService

/- ### Bridge helpers for the claim theorems -/

theorem isPrefix_filterMap {α β : Type} (f : α → Option β) {l₁ l₂ : List α}
    (h : l₁ <+: l₂) : l₁.filterMap f <+: l₂.filterMap f := by
  obtain ⟨t, rfl⟩ := h
  exact ⟨t.filterMap f, (List.filterMap_append _ _ f).symm⟩

theorem trainCheckpoints_chain :
    List.Chain' (· ≤ ·) ([10, 20, 30, 70, 85, 100] : List ℚ) := by
  simp [List.chain'_cons]
  norm_num

namespace TrainingService

theorem createModel_ok_of_supported (alg : String) (h : alg ∈ supportedAlgorithms) :
    ∃ k, createModel alg = .ok k := by
  cases hc : createModel alg with
  | ok k => exact ⟨k, rfl⟩
  | error m =>
    exact absurd h (((createModel_error_iff alg).1 ⟨m, hc⟩))

/-- The full worker trace of a training run in which every collaborator
succeeds. -/
theorem trainModelActs_success (env : TrainEnv) (req : TrainingRequest)
    (hds : env.datasetExists = true) (hre : env.readError = none)
    (hce : env.columnError = none) (hse : env.splitError = none)
    (halg : req.algorithm ∈ supportedAlgorithms) (hfe : env.fitError = none)
    (hpe : env.predictError = none) (hde : env.dumpError = none) :
    trainModelActs env req =
      [.updateStatus "training" 10, .loadDataset, .updateStatus "training" 20,
       .updateStatus "training" 30, .fitModel, .updateStatus "training" 70,
       .updateStatus "training" 85,
       .completeJob env.modelId ("models/" ++ env.modelId ++ ".pkl")
         env.metrics env.featureImportance] := by
  obtain ⟨k, hk⟩ := createModel_ok_of_supported req.algorithm halg
  unfold trainModelActs
  rw [hds, hre, hce, hse, hk, hfe, hpe, hde]
  rfl

end TrainingService

namespace PredictionService

/-- A chunk-loop abort message comes from some chunk's `model.predict`. -/
theorem chunkLoop_err_src (env : PredEnv) (req : BatchPredictionRequest) :
    ∀ s m, (chunkLoop env req s).err = some m → ∃ i, env.chunkPredError i = some m := by
  intro s
  induction s using chunkLoop.induct env req with
  | case1 s h m hm =>
    intro m' hm'
    rw [chunkLoop] at hm'
    simp [h, hm] at hm'
    exact ⟨s, by rw [hm, hm']⟩
  | case2 s h hm ih =>
    intro m' hm'
    rw [chunkLoop] at hm'
    simp only [dif_pos h, hm] at hm'
    exact ih m' hm'
  | case3 s h =>
    intro m' hm'
    rw [chunkLoop] at hm'
    simp [h] at hm'

theorem predWorkerActs_body (env : PredEnv) (req : BatchPredictionRequest) :
    predWorkerActs (predBodyList env req) = predBodyList env req := by
  apply List.filter_eq_self.2
  intro a ha
  have hall := predBodyList_all env req
  rw [List.all_eq_true] at hall
  have hba := hall a ha
  cases a <;> simp_all [isPredBodyAct, PredAct.isCancel]

/-- Provenance of every `_fail_job` message in a batch-prediction trace. -/
theorem predTrace_failJob_msg (env : PredEnv) (req : BatchPredictionRequest)
    (jid : String) (m : String) (h : PredAct.failJob m ∈ runBatchActs env req jid) :
    m = "Dataset " ++ req.dataset_id ++ " not found" ∨
    m = "Model " ++ req.model_id ++ " not found" ∨
    env.readError = some m ∨ env.loadError = some m ∨
    (∃ i, env.chunkPredError i = some m) ∨ env.saveError = some m := by
  rw [runBatchActs_eq_body_terminal] at h
  rcases List.mem_append.1 h with hb | ht
  · exfalso
    have hall := predBodyList_all env req
    rw [List.all_eq_true] at hall
    have := hall _ hb
    simp [isPredBodyAct] at this
  · have ht' : predTerminalAct env req jid = .failJob m :=
      (List.mem_singleton.1 ht).symm
    clear ht h
    unfold predTerminalAct at ht'
    revert ht'
    cases env.datasetExists <;> cases env.readError <;> cases env.modelExists <;>
      cases env.loadError <;> cases herr : (chunkLoop env req 0).err <;>
      cases env.saveError <;> intro ht' <;> (try simp_all) <;>
      (try (have hex := chunkLoop_err_src env req 0 _ herr)) <;> tauto

/-- Hypothesis: the collaborator exception messages are non-empty. -/
def PredMsgsNonempty (env : PredEnv) : Prop :=
  (∀ m, env.readError = some m → m ≠ "") ∧
  (∀ m, env.loadError = some m → m ≠ "") ∧
  (∀ i m, env.chunkPredError i = some m → m ≠ "") ∧
  (∀ m, env.saveError = some m → m ≠ "")

theorem predTrace_failJob_msg_ne_empty (env : PredEnv) (req : BatchPredictionRequest)
    (jid : String) (hne : PredMsgsNonempty env) (m : String)
    (h : PredAct.failJob m ∈ runBatchActs env req jid) : m ≠ "" := by
  rcases predTrace_failJob_msg env req jid m h with hm | hm | hm | hm | ⟨i, hm⟩ | hm
  · rw [hm]
    exact TrainingService.string_append_ne_empty_left _
      (TrainingService.string_append_ne_empty_left _ (by decide))
  · rw [hm]
    exact TrainingService.string_append_ne_empty_left _
      (TrainingService.string_append_ne_empty_left _ (by decide))
  · exact hne.1 m hm
  · exact hne.2.1 m hm
  · exact hne.2.2.1 i m hm
  · exact hne.2.2.2 m hm

/-- The terminal act of a fully successful batch-prediction run. -/
theorem predTerminalAct_success (env : PredEnv) (req : BatchPredictionRequest)
    (jid : String) (hds : env.datasetExists = true) (hre : env.readError = none)
    (hme : env.modelExists = true) (hle : env.loadError = none)
    (hok : ∀ i, env.chunkPredError i = none) (hse : env.saveError = none) :
    predTerminalAct env req jid =
      .complete ("outputs/" ++ jid ++ "_predictions." ++
        (if req.output_format = "json" then "json" else "csv")) := by
  unfold predTerminalAct
  rw [hds, hre, hme, hle, chunkLoop_err_none env req hok 0, hse]
  rfl

/-- A batch-prediction worker that runs to completion leaves the job
`"completed"`. -/
theorem predSuccess_completed (env : PredEnv) (req : BatchPredictionRequest)
    (jid : String) (hds : env.datasetExists = true) (hre : env.readError = none)
    (hme : env.modelExists = true) (hle : env.loadError = none)
    (hok : ∀ i, env.chunkPredError i = none) (hse : env.saveError = none) :
    ∃ st, (runPred jid req (runBatchActs env req jid)).2 = some st ∧
      st.status = "completed" ∧ st.progress = 100 := by
  have hbodyRun : PredRun env req jid (predBodyList env req) := by
    unfold PredRun
    rw [predWorkerActs_body, runBatchActs_eq_body_terminal]
    exact List.prefix_append _ _
  obtain ⟨stB, hstB, hdisj⟩ := predMaster env req jid (predBodyList env req) hbodyRun
  have hpre : PreInvP stB := by
    rcases hdisj with hpre | ⟨hfullEq, _⟩
    · exact hpre
    · exfalso
      rw [predWorkerActs_body, runBatchActs_eq_body_terminal] at hfullEq
      have := congrArg List.length hfullEq
      simp at this
  rw [runBatchActs_eq_body_terminal,
    predTerminalAct_success env req jid hds hre hme hle hok hse]
  rw [runPred_concat, hstB, applyPredComplete_some]
  exact ⟨_, rfl, rfl, rfl⟩

end PredictionService

namespace TrainingService

theorem getTrainingResult_none (now : ℕ) (jid : String) :
    getTrainingResult now jid none = none := rfl

theorem getTrainingResult_some (now : ℕ) (jid : String) (st : TrainingStatus) :
    getTrainingResult now jid (some st) =
      if st.status ≠ "completed" then none
      else
        some
          { job_id := jid
            model_id :=
              match st.model_path with
              | some p => (basename p).replace ".pkl" ""
              | none => ""
            algorithm := "unknown"
            metrics := st.metrics.getD []
            feature_importance := none
            training_duration := 0
            model_size := 0
            created_at := st.completed_at.getD now } := rfl

end TrainingService

/- ### Claim theorems -/

/-- C10: For every training job that completes, the feature-importance data
computed by the pipeline is discarded: `_complete_job` writes the same record
whatever its `feature_importance` argument is, it stores exactly status,
progress, completion time, model path and metrics, and
`get_training_result` always returns `feature_importance = None`. -/
theorem c10_feature_importance_discarded :
    (∀ (now : ℕ) (mid mp : String) (ms : Metrics) (fi fi' : Option Metrics)
        (j : TrainingService.TrainingStatus),
      TrainingService.completeJobRecord now mid mp ms fi j =
        TrainingService.completeJobRecord now mid mp ms fi' j) ∧
    (∀ (now : ℕ) (mid mp : String) (ms : Metrics) (fi : Option Metrics)
        (j : TrainingService.TrainingStatus),
      TrainingService.completeJobRecord now mid mp ms fi j =
        { j with status := "completed", progress := 100, completed_at := some now,
                 model_path := some mp, metrics := some ms }) ∧
    (∀ (now : ℕ) (jid : String) (job : Option TrainingService.TrainingStatus)
        (res : TrainingService.TrainingResult),
      TrainingService.getTrainingResult now jid job = some res →
      res.feature_importance = none) := by
  refine ⟨fun _ _ _ _ _ _ _ => rfl, fun _ _ _ _ _ _ => rfl, ?_⟩
  intro now jid job res h
  cases job with
  | none =>
    rw [TrainingService.getTrainingResult_none] at h
    exact absurd h (by simp)
  | some st =>
    rw [TrainingService.getTrainingResult_some] at h
    by_cases hs : st.status ≠ "completed"
    · rw [if_pos hs] at h
      exact absurd h (by simp)
    · rw [if_neg hs] at h
      have := Option.some_inj.1 h
      rw [← this]

namespace TrainingService

/-- A concrete completed training record, for the C10 witness. -/
def jobC10 : TrainingStatus :=
  { job_id := "job-1", status := "completed", progress := 100,
    metrics := some [("mse", 1)], started_at := some 0, completed_at := some 8,
    model_path := some "models/abc.pkl" }

end TrainingService

/-- C10 witness: the result reconstructed for a concrete completed job has
`feature_importance = None`. -/
theorem c10_feature_importance_discarded_witness :
    (TrainingService.getTrainingResult 9 "job-1" (some TrainingService.jobC10)).isSome = true ∧
    ((TrainingService.getTrainingResult 9 "job-1" (some TrainingService.jobC10)).map
      TrainingService.TrainingResult.feature_importance) = some none := by
  obtain ⟨res, hres⟩ :
      ∃ res, TrainingService.getTrainingResult 9 "job-1" (some TrainingService.jobC10) =
        some res := ⟨_, rfl⟩
  refine ⟨by rw [hres]; rfl, ?_⟩
  rw [hres]
  simp only [Option.map_some']
  rw [c10_feature_importance_discarded.2.2 9 "job-1" (some TrainingService.jobC10) res hres]

/-- C9: Model loading for prediction is cached.  A cache hit returns the
cached artifact without a storage load and leaves the state unchanged; a miss
(with the model file present) loads exactly once, stores the artifact under
its id, and returns it; immediately reloading after any successful load
returns the identical artifact with no further storage load;
`clear_model_cache` empties the cache and, values being immutable, leaves any
already-returned artifact (and the load counter) untouched. -/
theorem c9_model_cache_get_or_load {A : Type} (store : String → Option A)
    (st : PredictionService.CacheState A) (id : String) :
    (∀ m, st.models_cache id = some m →
      PredictionService.loadModel store st id = .ok (m, st)) ∧
    (∀ a, st.models_cache id = none → store id = some a →
      PredictionService.loadModel store st id =
        .ok (a, { models_cache := fun i => if i = id then some a else st.models_cache i,
                  loads := st.loads + 1 })) ∧
    (∀ a st', PredictionService.loadModel store st id = .ok (a, st') →
      PredictionService.loadModel store st' id = .ok (a, st')) ∧
    (∀ i, (PredictionService.clearModelCache st).models_cache i = none) ∧
    (PredictionService.clearModelCache st).loads = st.loads := by
  refine ⟨?_, ?_, ?_, fun _ => rfl, rfl⟩
  · intro m hm
    unfold PredictionService.loadModel
    rw [hm]
  · intro a hnone hstore
    unfold PredictionService.loadModel
    rw [hnone, hstore]
  · intro a st' h
    unfold PredictionService.loadModel at h
    cases hc : st.models_cache id with
    | some m =>
      rw [hc] at h
      injection h with h2
      have hm : m = a := congrArg Prod.fst h2
      have hst : st = st' := congrArg Prod.snd h2
      rw [← hst]
      unfold PredictionService.loadModel
      rw [hc, hm]
    | none =>
      rw [hc] at h
      cases hs : store id with
      | none =>
        rw [hs] at h
        exact absurd h (by simp)
      | some b =>
        rw [hs] at h
        injection h with h2
        have hb : b = a := congrArg Prod.fst h2
        have hst : ({ models_cache := fun i => if i = id then some b else st.models_cache i,
                      loads := st.loads + 1 } : PredictionService.CacheState A) = st' :=
          congrArg Prod.snd h2
        rw [← hst, ← hb]
        unfold PredictionService.loadModel
        simp

namespace PredictionService

/-- A concrete one-model store for the C9 witness. -/
def storeC9 : String → Option ℕ :=
  fun id => if id = "m1" then some 42 else none

end PredictionService

/-- C9 witness: on an empty cache, loading "m1" deserializes the artifact 42
once and caches it; the states and artifacts are as the theorem computes. -/
theorem c9_model_cache_get_or_load_witness :
    (PredictionService.emptyCache ℕ).models_cache "m1" = none ∧
    PredictionService.storeC9 "m1" = some 42 ∧
    PredictionService.loadModel PredictionService.storeC9
        (PredictionService.emptyCache ℕ) "m1" =
      .ok (42, { models_cache := fun i => if i = "m1" then some 42
                   else (PredictionService.emptyCache ℕ).models_cache i,
                 loads := (PredictionService.emptyCache ℕ).loads + 1 }) := by
  refine ⟨rfl, rfl, ?_⟩
  exact (c9_model_cache_get_or_load PredictionService.storeC9
    (PredictionService.emptyCache ℕ) "m1").2.1 42 rfl rfl

/-- C7: `compare_models` skips candidates that fail to load or fail
evaluation (metrics are reported exactly for the surviving candidates, in
order); any returned `best_model` other than `"none"` is a surviving
candidate whose criterion score is maximal when the criterion is in the
higher-is-better family (`accuracy`, `precision`, `recall`, `f1_score`,
`r2_score`) and minimal otherwise (`mse`, `mae`, `rmse`); if no candidate
yields a usable score for the criterion the result is `"none"`. -/
theorem c7_compare_models_selection (model_ids : List String) (ds : String)
    (evalModel : String → Option Metrics) (criterion : String) :
    ((ValidationService.compareModels model_ids ds evalModel criterion).metrics.map
        Prod.fst = model_ids.filter (fun id => (evalModel id).isSome)) ∧
    ((∀ p, p ∈ (ValidationService.compareModels model_ids ds evalModel criterion).metrics →
        p.2.lookup criterion = none) →
      (ValidationService.compareModels model_ids ds evalModel criterion).best_model =
        "none") ∧
    (∀ id, (ValidationService.compareModels model_ids ds evalModel criterion).best_model =
        id → id ≠ "none" →
      ∃ ms s, (id, ms) ∈
          (ValidationService.compareModels model_ids ds evalModel criterion).metrics ∧
        ms.lookup criterion = some s ∧
        ∀ id' ms' s',
          (id', ms') ∈
            (ValidationService.compareModels model_ids ds evalModel criterion).metrics →
          ms'.lookup criterion = some s' →
          (if ValidationService.higherIsBetter criterion then s' ≤ s else s ≤ s')) := by
  refine ⟨ValidationService.compareModels_metrics_ids model_ids ds evalModel criterion,
    ?_, ?_⟩
  · intro hall
    have hnone : (model_ids.filterMap
        (fun id => (evalModel id).map (fun ms => (id, ms)))).foldl
        (ValidationService.pickBest (ValidationService.higherIsBetter criterion)
          criterion) none = none := by
      rw [ValidationService.pickBest_fold_none]
      exact ⟨rfl, hall⟩
    unfold ValidationService.compareModels
    simp only [hnone]
  · intro id hbm hne
    rcases hbest : (model_ids.filterMap
        (fun id => (evalModel id).map (fun ms => (id, ms)))).foldl
        (ValidationService.pickBest (ValidationService.higherIsBetter criterion)
          criterion) none with _ | ⟨bid, bs⟩
    · exfalso
      apply hne
      rw [← hbm]
      unfold ValidationService.compareModels
      simp only [hbest]
    · have hmem := ValidationService.pickBest_fold_mem _ criterion _ none bid bs hbest
      have hdom := ValidationService.pickBest_fold_dom _ criterion _ none bid bs hbest
      rcases hmem with hacc | ⟨ms, hmemL, hms⟩
      · exact absurd hacc (by simp)
      · have hid : bid = id := by
          by_cases hemp : bid = ""
          · exfalso
            apply hne
            rw [← hbm]
            unfold ValidationService.compareModels
            simp only [hbest, hemp, if_pos]
          · rw [← hbm]
            unfold ValidationService.compareModels
            simp only [hbest, if_neg hemp]
        refine ⟨ms, bs, ?_, hms, ?_⟩
        · rw [← hid]
          unfold ValidationService.compareModels
          exact hmemL
        · intro id' ms' s' hm' hl'
          exact hdom.2 id' ms' s' hm' hl'

namespace ValidationService

/-- The spec's comparison example: "m2" fails to load, "m1" and "m3" evaluate. -/
def evalC7 : String → Option Metrics :=
  fun id =>
    if id = "m1" then some [("accuracy", 9)]
    else if id = "m3" then some [("accuracy", 8)]
    else none

end ValidationService

/-- C7 witness: in the spec's example, metrics survive only for m1 and m3,
the higher accuracy wins, and a criterion nobody reports yields "none". -/
theorem c7_compare_models_selection_witness :
    (ValidationService.compareModels ["m1", "m2", "m3"] "ds1"
      ValidationService.evalC7 "accuracy").metrics.map Prod.fst = ["m1", "m3"] ∧
    (ValidationService.compareModels ["m1", "m2", "m3"] "ds1"
      ValidationService.evalC7 "accuracy").best_model = "m1" ∧
    (ValidationService.compareModels ["m1", "m2", "m3"] "ds1"
      ValidationService.evalC7 "zzz").best_model = "none" := by
  refine ⟨?_, by decide, ?_⟩
  · rw [(c7_compare_models_selection ["m1", "m2", "m3"] "ds1"
      ValidationService.evalC7 "accuracy").1]
    decide
  · exact (c7_compare_models_selection ["m1", "m2", "m3"] "ds1"
      ValidationService.evalC7 "zzz").2.1 (by decide)

namespace TrainingService

/-- Concrete all-success collaborator environment for the claim instances. -/
def envC1 : TrainEnv :=
  { datasetExists := true, metrics := [("mse", 1)], modelId := "m1" }

/-- Concrete linear-regression training request for the claim instances. -/
def reqC1 : TrainingRequest :=
  { dataset_id := "ds1", algorithm := "linear_regression",
    target_column := "y", feature_columns := ["x1", "x2", "x3"] }

/-- The worker steps of `envC1`/`reqC1` up to (not including) `_complete_job`,
with a cancellation request arriving right before completion. -/
def actsC1pre : List TrainAct :=
  [.updateStatus "training" 10, .loadDataset, .updateStatus "training" 20,
   .updateStatus "training" 30, .fitModel, .updateStatus "training" 70,
   .updateStatus "training" 85, .cancel]

/-- The same history continued by the worker's `_complete_job`. -/
def actsC1 : List TrainAct :=
  actsC1pre ++ [.completeJob "m1" "models/m1.pkl" [("mse", 1)] none]

end TrainingService

/-- C1: the code violates the claim.  In a legal interleaved history of a
training job (worker trace of `_train_model` with a `cancel_training_job`
arriving just before `_complete_job`), the cancellation succeeds (returns
`True`, status becomes `"cancelled"`), yet the worker's subsequent
`_complete_job` overwrites the terminal `"cancelled"` status with
`"completed"` — `_complete_job` never checks the current status.  (The
prediction and validation services' completion and `_fail_job` blocks are
word-for-word the same.) -/
theorem c1_completion_overwrites_cancelled :
    TrainingService.TrainRun TrainingService.envC1 TrainingService.reqC1
      TrainingService.actsC1 ∧
    (TrainingService.cancelTrainingJob 7
      ((TrainingService.runTrain "job-1" (TrainingService.actsC1pre.take 7)).2)).1 = true ∧
    ((TrainingService.runTrain "job-1" TrainingService.actsC1pre).2.map
      TrainingService.TrainingStatus.status) = some "cancelled" ∧
    ((TrainingService.runTrain "job-1" TrainingService.actsC1).2.map
      TrainingService.TrainingStatus.status) = some "completed" := by
  refine ⟨?_, by decide, by decide, by decide⟩
  unfold TrainingService.TrainRun
  decide

/-- C2 counterexample: after the training worker's very first registry write
(a legal one-step history) the stored status is the literal `"training"`,
which is not among the five values the claim allows
(`queued/running/completed/failed/cancelled`). -/
theorem c2_counterexample_training_status_literal :
    TrainingService.TrainRun TrainingService.envC1 TrainingService.reqC1
      [.updateStatus "training" 10] ∧
    ((TrainingService.runTrain "job-1" [.updateStatus "training" 10]).2.map
      TrainingService.TrainingStatus.status) = some "training" ∧
    "training" ∉ (["queued", "running", "completed", "failed", "cancelled"] :
      List String) := by
  refine ⟨?_, by decide, by decide⟩
  unfold TrainingService.TrainRun
  decide

/-- C2 (amended): for each of the three job kinds, every status ever stored
is one of `queued`, `running`/`training`, `completed`, `failed`, `cancelled`
— the training service names its running state `"training"`, prediction and
validation use `"running"`.  `completed` and `failed` are terminal: once a
record carries one of them no further history changes the record.  A
cancellation moves a record to `cancelled` only from `queued` or the
running/`training` state, and cancelling a `completed`/`failed` job is a
no-op returning `False`. -/
theorem c2_amended_status_machine :
    (∀ (env : TrainingService.TrainEnv) (req : TrainingService.TrainingRequest)
        (jid : String) (acts : List TrainingService.TrainAct)
        (st : TrainingService.TrainingStatus),
      TrainingService.TrainRun env req acts →
      (TrainingService.runTrain jid acts).2 = some st →
      st.status ∈ (["queued", "training", "completed", "failed", "cancelled"] :
        List String)) ∧
    (∀ (env : PredictionService.PredEnv) (req : PredictionService.BatchPredictionRequest)
        (jid : String) (acts : List PredictionService.PredAct)
        (st : PredictionService.PredictionJob),
      PredictionService.PredRun env req jid acts →
      (PredictionService.runPred jid req acts).2 = some st →
      st.status ∈ (["queued", "running", "completed", "failed", "cancelled"] :
        List String)) ∧
    (∀ (env : ValidationService.ValEnv) (req : ValidationService.ValidationRequest)
        (jid : String) (now₀ : ℕ) (acts : List ValidationService.ValAct)
        (st : ValidationService.ValidationJob),
      ValidationService.ValRun env req jid now₀ acts →
      (ValidationService.runVal jid req acts).2 = some st →
      st.status ∈ (["queued", "running", "completed", "failed", "cancelled"] :
        List String)) ∧
    (∀ (env : TrainingService.TrainEnv) (req : TrainingService.TrainingRequest)
        (jid : String) (acts ext : List TrainingService.TrainAct)
        (st : TrainingService.TrainingStatus),
      TrainingService.TrainRun env req (acts ++ ext) →
      (TrainingService.runTrain jid acts).2 = some st →
      st.status = "completed" ∨ st.status = "failed" →
      (TrainingService.runTrain jid (acts ++ ext)).2 = some st) ∧
    (∀ (env : PredictionService.PredEnv) (req : PredictionService.BatchPredictionRequest)
        (jid : String) (acts ext : List PredictionService.PredAct)
        (st : PredictionService.PredictionJob),
      PredictionService.PredRun env req jid (acts ++ ext) →
      (PredictionService.runPred jid req acts).2 = some st →
      st.status = "completed" ∨ st.status = "failed" →
      (PredictionService.runPred jid req (acts ++ ext)).2 = some st) ∧
    (∀ (env : ValidationService.ValEnv) (req : ValidationService.ValidationRequest)
        (jid : String) (now₀ : ℕ) (acts ext : List ValidationService.ValAct)
        (st : ValidationService.ValidationJob),
      ValidationService.ValRun env req jid now₀ (acts ++ ext) →
      (ValidationService.runVal jid req acts).2 = some st →
      st.status = "completed" ∨ st.status = "failed" →
      (ValidationService.runVal jid req (acts ++ ext)).2 = some st) ∧
    (∀ (now : ℕ) (st : TrainingService.TrainingStatus),
      (TrainingService.cancelTrainingJob now (some st)).1 = true →
      st.status ∈ (["queued", "training"] : List String)) ∧
    (∀ (now : ℕ) (st : PredictionService.PredictionJob),
      (PredictionService.cancelPredictionJob now (some st)).1 = true →
      st.status ∈ (["queued", "running"] : List String)) ∧
    (∀ (now : ℕ) (st : ValidationService.ValidationJob),
      (ValidationService.cancelValidationJob now (some st)).1 = true →
      st.status ∈ (["queued", "running"] : List String)) ∧
    (∀ (now : ℕ) (st : TrainingService.TrainingStatus),
      st.status = "completed" ∨ st.status = "failed" →
      TrainingService.cancelTrainingJob now (some st) = (false, some st)) ∧
    (∀ (now : ℕ) (st : PredictionService.PredictionJob),
      st.status = "completed" ∨ st.status = "failed" →
      PredictionService.cancelPredictionJob now (some st) = (false, some st)) ∧
    (∀ (now : ℕ) (st : ValidationService.ValidationJob),
      st.status = "completed" ∨ st.status = "failed" →
      ValidationService.cancelValidationJob now (some st) = (false, some st)) := by
  refine ⟨?_, ?_, ?_, ?_, ?_, ?_, ?_, ?_, ?_, ?_, ?_, ?_⟩
  · intro env req jid acts st hrun hst
    obtain ⟨st', hst', hdisj⟩ := TrainingService.trainMaster env req jid acts hrun
    have hss : st' = st := by
      rw [hst] at hst'
      exact (Option.some_inj.1 hst').symm
    rw [hss] at hdisj
    rcases hdisj with hpre | ⟨_, hdone⟩
    · have h1 := hpre.1
      simp only [List.mem_cons, List.not_mem_nil, or_false] at h1
      rcases h1 with h | h | h <;> rw [h] <;> decide
    · rcases hdone with ⟨hs, _⟩ | ⟨m, hs, _⟩ <;> rw [hs] <;> decide
  · intro env req jid acts st hrun hst
    obtain ⟨st', hst', hdisj⟩ := PredictionService.predMaster env req jid acts hrun
    have hss : st' = st := by
      rw [hst] at hst'
      exact (Option.some_inj.1 hst').symm
    rw [hss] at hdisj
    rcases hdisj with hpre | ⟨_, hdone⟩
    · have h1 := hpre.1
      simp only [List.mem_cons, List.not_mem_nil, or_false] at h1
      rcases h1 with h | h | h <;> rw [h] <;> decide
    · rcases hdone with ⟨hs, _⟩ | ⟨m, hs, _⟩ <;> rw [hs] <;> decide
  · intro env req jid now₀ acts st hrun hst
    obtain ⟨st', hst', hdisj⟩ := ValidationService.valMaster env req jid now₀ acts hrun
    have hss : st' = st := by
      rw [hst] at hst'
      exact (Option.some_inj.1 hst').symm
    rw [hss] at hdisj
    rcases hdisj with hpre | ⟨_, hdone⟩
    · have h1 := hpre.1
      simp only [List.mem_cons, List.not_mem_nil, or_false] at h1
      rcases h1 with h | h | h <;> rw [h] <;> decide
    · rcases hdone with ⟨hs, _⟩ | ⟨m, hs, _⟩ <;> rw [hs] <;> decide
  · intro env req jid acts ext st h hst hterm
    exact TrainingService.trainTerminal_persists env req jid acts ext h st hst hterm
  · intro env req jid acts ext st h hst hterm
    exact PredictionService.predTerminal_persists env req jid acts ext h st hst hterm
  · intro env req jid now₀ acts ext st h hst hterm
    exact ValidationService.valTerminal_persists env req jid now₀ acts ext h st hst hterm
  · intro now st h
    by_cases hq : st.status ∈ (["queued", "training"] : List String)
    · exact hq
    · rw [show TrainingService.cancelTrainingJob now (some st) = (false, some st) from by
        simp [TrainingService.cancelTrainingJob, hq]] at h
      exact absurd h (by simp)
  · intro now st h
    by_cases hq : st.status ∈ (["queued", "running"] : List String)
    · exact hq
    · rw [show PredictionService.cancelPredictionJob now (some st) = (false, some st) from by
        simp [PredictionService.cancelPredictionJob, hq]] at h
      exact absurd h (by simp)
  · intro now st h
    by_cases hq : st.status ∈ (["queued", "running"] : List String)
    · exact hq
    · rw [show ValidationService.cancelValidationJob now (some st) = (false, some st) from by
        simp [ValidationService.cancelValidationJob, hq]] at h
      exact absurd h (by simp)
  · intro now st hterm
    have hq : st.status ∉ (["queued", "training"] : List String) := by
      rcases hterm with hs | hs <;> rw [hs] <;> decide
    simp [TrainingService.cancelTrainingJob, hq]
  · intro now st hterm
    have hq : st.status ∉ (["queued", "running"] : List String) := by
      rcases hterm with hs | hs <;> rw [hs] <;> decide
    simp [PredictionService.cancelPredictionJob, hq]
  · intro now st hterm
    have hq : st.status ∉ (["queued", "running"] : List String) := by
      rcases hterm with hs | hs <;> rw [hs] <;> decide
    simp [ValidationService.cancelValidationJob, hq]

namespace TrainingService

/-- The record after the training worker's first registry write. -/
def stC2 : TrainingStatus :=
  { job_id := "job-1", status := "training", progress := 10, started_at := some 0 }

end TrainingService

/-- C2 witness: a concrete one-step history lands in the (amended) status
set, and cancelling a concrete completed record is a no-op returning false. -/
theorem c2_amended_status_machine_witness :
    TrainingService.TrainRun TrainingService.envC1 TrainingService.reqC1
      [.updateStatus "training" 10] ∧
    (TrainingService.runTrain "job-1" [.updateStatus "training" 10]).2 =
      some TrainingService.stC2 ∧
    TrainingService.stC2.status ∈
      (["queued", "training", "completed", "failed", "cancelled"] : List String) ∧
    TrainingService.cancelTrainingJob 3 (some TrainingService.jobC10) =
      (false, some TrainingService.jobC10) := by
  have hrun : TrainingService.TrainRun TrainingService.envC1 TrainingService.reqC1
      [.updateStatus "training" 10] := by
    unfold TrainingService.TrainRun
    decide
  refine ⟨hrun, by decide, ?_, ?_⟩
  · exact c2_amended_status_machine.1 TrainingService.envC1 TrainingService.reqC1
      "job-1" [.updateStatus "training" 10] TrainingService.stC2 hrun (by decide)
  · exact c2_amended_status_machine.2.2.2.2.2.2.2.2.2.1 3 TrainingService.jobC10
      (Or.inl rfl)

namespace TrainingService

/-- A training request with an algorithm identifier outside the enum. -/
def reqC3 : TrainingRequest :=
  { dataset_id := "ds1", algorithm := "quantum_forest",
    target_column := "y", feature_columns := ["x1"] }

end TrainingService

/-- C3 counterexample: with an unsupported algorithm identifier and an
existing dataset, the worker trace reads the dataset (second event) and only
later, after the split checkpoint, raises the unsupported-algorithm error —
the error is not raised before the dataset is loaded. -/
theorem c3_counterexample_dataset_loaded_before_error :
    TrainingService.trainModelActs TrainingService.envC1 TrainingService.reqC3 =
      [.updateStatus "training" 10, .loadDataset, .updateStatus "training" 20,
       .updateStatus "training" 30,
       .failJob "Unsupported algorithm: quantum_forest"] ∧
    TrainingService.TrainAct.loadDataset ∈
      (TrainingService.trainModelActs TrainingService.envC1
        TrainingService.reqC3).take 2 ∧
    TrainingService.TrainAct.fitModel ∉
      TrainingService.trainModelActs TrainingService.envC1 TrainingService.reqC3 := by
  refine ⟨by decide, by decide, by decide⟩

/-- C3 (amended): for a training request whose algorithm identifier is not
one of the five supported ones, with the dataset present and readable, the
job fails at the model-construction stage — after the dataset has been
loaded, the columns selected and the data split (progress 10/20/30), with the
message `Unsupported algorithm: <id>` — and no fitting is ever performed. -/
theorem c3_amended_unsupported_algorithm_fails_before_fit
    (env : TrainingService.TrainEnv) (req : TrainingService.TrainingRequest)
    (halg : req.algorithm ∉ TrainingService.supportedAlgorithms)
    (hds : env.datasetExists = true) (hre : env.readError = none)
    (hce : env.columnError = none) (hse : env.splitError = none) :
    TrainingService.trainModelActs env req =
      [.updateStatus "training" 10, .loadDataset, .updateStatus "training" 20,
       .updateStatus "training" 30,
       .failJob ("Unsupported algorithm: " ++ req.algorithm)] ∧
    TrainingService.TrainAct.fitModel ∉ TrainingService.trainModelActs env req := by
  have hcm : TrainingService.createModel req.algorithm =
      .error ("Unsupported algorithm: " ++ req.algorithm) := by
    cases hc : TrainingService.createModel req.algorithm with
    | ok k =>
      exfalso
      apply halg
      by_contra hns
      obtain ⟨m, hm⟩ := (TrainingService.createModel_error_iff req.algorithm).2 hns
      rw [hc] at hm
      exact absurd hm (by simp)
    | error m =>
      rw [TrainingService.createModel_error_msg req.algorithm m hc]
  have htrace : TrainingService.trainModelActs env req =
      [.updateStatus "training" 10, .loadDataset, .updateStatus "training" 20,
       .updateStatus "training" 30,
       .failJob ("Unsupported algorithm: " ++ req.algorithm)] := by
    unfold TrainingService.trainModelActs
    rw [hds, hre, hce, hse, hcm]
    rfl
  refine ⟨htrace, ?_⟩
  rw [htrace]
  simp

/-- C3 witness: the amended statement at the concrete unsupported request. -/
theorem c3_amended_unsupported_algorithm_fails_before_fit_witness :
    TrainingService.reqC3.algorithm ∉ TrainingService.supportedAlgorithms ∧
    TrainingService.envC1.datasetExists = true ∧
    TrainingService.TrainAct.fitModel ∉
      TrainingService.trainModelActs TrainingService.envC1 TrainingService.reqC3 := by
  refine ⟨by decide, rfl, ?_⟩
  exact (c3_amended_unsupported_algorithm_fails_before_fit TrainingService.envC1
    TrainingService.reqC3 (by decide) rfl rfl rfl rfl).2

/-- C4: in every reachable registry state of each of the three job kinds, the
kind's result payload (training metrics / model path, batch-prediction output
path, validation result) is populated iff the status is `"completed"`, and a
`"failed"` record carries no payload and a non-empty error message (given
that the collaborators' exception messages are non-empty, as Python's
`str(e)` is for the exceptions raised here). -/
theorem c4_result_payload_iff_completed :
    (∀ (env : TrainingService.TrainEnv) (req : TrainingService.TrainingRequest)
        (jid : String) (acts : List TrainingService.TrainAct)
        (st : TrainingService.TrainingStatus),
      TrainingService.TrainRun env req acts →
      (TrainingService.runTrain jid acts).2 = some st →
      TrainingService.TrainMsgsNonempty env →
      ((st.metrics ≠ none ∨ st.model_path ≠ none) ↔ st.status = "completed") ∧
      (st.status = "failed" → st.metrics = none ∧ st.model_path = none ∧
        ∃ m, st.error_message = some m ∧ m ≠ "")) ∧
    (∀ (env : PredictionService.PredEnv) (req : PredictionService.BatchPredictionRequest)
        (jid : String) (acts : List PredictionService.PredAct)
        (st : PredictionService.PredictionJob),
      PredictionService.PredRun env req jid acts →
      (PredictionService.runPred jid req acts).2 = some st →
      PredictionService.PredMsgsNonempty env →
      (st.output_path ≠ none ↔ st.status = "completed") ∧
      (st.status = "failed" → st.output_path = none ∧
        ∃ m, st.error_message = some m ∧ m ≠ "")) ∧
    (∀ (env : ValidationService.ValEnv) (req : ValidationService.ValidationRequest)
        (jid : String) (now₀ : ℕ) (acts : List ValidationService.ValAct)
        (st : ValidationService.ValidationJob),
      ValidationService.ValRun env req jid now₀ acts →
      (ValidationService.runVal jid req acts).2 = some st →
      ValidationService.ValMsgsNonempty env →
      (st.result ≠ none ↔ st.status = "completed") ∧
      (st.status = "failed" → st.result = none ∧
        ∃ m, st.error_message = some m ∧ m ≠ "")) := by
  refine ⟨?_, ?_, ?_⟩
  · intro env req jid acts st hrun hst hne
    obtain ⟨st', hst', hdisj⟩ := TrainingService.trainMaster env req jid acts hrun
    have hss : st' = st := by
      rw [hst] at hst'
      exact (Option.some_inj.1 hst').symm
    rw [hss] at hdisj
    rcases hdisj with hpre | ⟨_, hdone⟩
    · obtain ⟨hs, hm, hmp, he⟩ := hpre
      have hnc : st.status ≠ "completed" := by
        simp only [List.mem_cons, List.not_mem_nil, or_false] at hs
        rcases hs with h | h | h <;> rw [h] <;> decide
      have hnf : st.status ≠ "failed" := by
        simp only [List.mem_cons, List.not_mem_nil, or_false] at hs
        rcases hs with h | h | h <;> rw [h] <;> decide
      refine ⟨⟨fun hp => ?_, fun hc => absurd hc hnc⟩, fun hf => absurd hf hnf⟩
      rcases hp with hp | hp
      · exact absurd hm hp
      · exact absurd hmp hp
    · rcases hdone with ⟨hs, hm, hmp, he⟩ | ⟨m, hs, he, hm, hmp, hmem⟩
      · refine ⟨⟨fun _ => hs, fun _ => Or.inl (by rw [hm]; simp)⟩, fun hf => ?_⟩
        rw [hs] at hf
        exact absurd hf (by decide)
      · refine ⟨⟨fun hp => ?_, fun hc => ?_⟩, fun _ => ⟨hm, hmp, m, he,
          TrainingService.trainTrace_failJob_msg_ne_empty env req hne m hmem⟩⟩
        · rcases hp with hp | hp
          · exact absurd hm hp
          · exact absurd hmp hp
        · rw [hs] at hc
          exact absurd hc (by decide)
  · intro env req jid acts st hrun hst hne
    obtain ⟨st', hst', hdisj⟩ := PredictionService.predMaster env req jid acts hrun
    have hss : st' = st := by
      rw [hst] at hst'
      exact (Option.some_inj.1 hst').symm
    rw [hss] at hdisj
    rcases hdisj with hpre | ⟨_, hdone⟩
    · obtain ⟨hs, hmp, he⟩ := hpre
      have hnc : st.status ≠ "completed" := by
        simp only [List.mem_cons, List.not_mem_nil, or_false] at hs
        rcases hs with h | h | h <;> rw [h] <;> decide
      have hnf : st.status ≠ "failed" := by
        simp only [List.mem_cons, List.not_mem_nil, or_false] at hs
        rcases hs with h | h | h <;> rw [h] <;> decide
      exact ⟨⟨fun hp => absurd hmp hp, fun hc => absurd hc hnc⟩,
        fun hf => absurd hf hnf⟩
    · rcases hdone with ⟨hs, hmp, he⟩ | ⟨m, hs, he, hmp, hmem⟩
      · refine ⟨⟨fun _ => hs, fun _ => by rw [hmp]; simp⟩, fun hf => ?_⟩
        rw [hs] at hf
        exact absurd hf (by decide)
      · refine ⟨⟨fun hp => absurd hmp hp, fun hc => ?_⟩, fun _ => ⟨hmp, m, he,
          PredictionService.predTrace_failJob_msg_ne_empty env req jid hne m hmem⟩⟩
        rw [hs] at hc
        exact absurd hc (by decide)
  · intro env req jid now₀ acts st hrun hst hne
    obtain ⟨st', hst', hdisj⟩ := ValidationService.valMaster env req jid now₀ acts hrun
    have hss : st' = st := by
      rw [hst] at hst'
      exact (Option.some_inj.1 hst').symm
    rw [hss] at hdisj
    rcases hdisj with hpre | ⟨_, hdone⟩
    · obtain ⟨hs, hr, he⟩ := hpre
      have hnc : st.status ≠ "completed" := by
        simp only [List.mem_cons, List.not_mem_nil, or_false] at hs
        rcases hs with h | h | h <;> rw [h] <;> decide
      have hnf : st.status ≠ "failed" := by
        simp only [List.mem_cons, List.not_mem_nil, or_false] at hs
        rcases hs with h | h | h <;> rw [h] <;> decide
      exact ⟨⟨fun hp => absurd hr hp, fun hc => absurd hc hnc⟩,
        fun hf => absurd hf hnf⟩
    · rcases hdone with ⟨hs, hr, he⟩ | ⟨m, hs, he, hr, hmem⟩
      · refine ⟨⟨fun _ => hs, fun _ => by rw [hr]; simp⟩, fun hf => ?_⟩
        rw [hs] at hf
        exact absurd hf (by decide)
      · refine ⟨⟨fun hp => absurd hr hp, fun hc => ?_⟩, fun _ => ⟨hr, m, he,
          ValidationService.valTrace_failJob_msg_ne_empty env req jid now₀ hne m hmem⟩⟩
        rw [hs] at hc
        exact absurd hc (by decide)

namespace TrainingService

/-- The final record of the all-success training run of `envC1`/`reqC1`. -/
def stC4 : TrainingStatus :=
  { job_id := "job-1", status := "completed", progress := 100,
    metrics := some [("mse", 1)], started_at := some 0, completed_at := some 7,
    model_path := some "models/m1.pkl" }

end TrainingService

/-- C4 witness: the payload-iff-completed equivalence at the concrete final
record of a fully successful training run. -/
theorem c4_result_payload_iff_completed_witness :
    TrainingService.TrainRun TrainingService.envC1 TrainingService.reqC1
      (TrainingService.trainModelActs TrainingService.envC1 TrainingService.reqC1) ∧
    (TrainingService.runTrain "job-1"
      (TrainingService.trainModelActs TrainingService.envC1 TrainingService.reqC1)).2 =
      some TrainingService.stC4 ∧
    ((TrainingService.stC4.metrics ≠ none ∨ TrainingService.stC4.model_path ≠ none) ↔
      TrainingService.stC4.status = "completed") := by
  have hrun : TrainingService.TrainRun TrainingService.envC1 TrainingService.reqC1
      (TrainingService.trainModelActs TrainingService.envC1 TrainingService.reqC1) := by
    unfold TrainingService.TrainRun
    decide
  refine ⟨hrun, by decide, ?_⟩
  exact (c4_result_payload_iff_completed.1 TrainingService.envC1 TrainingService.reqC1
    "job-1" (TrainingService.trainModelActs TrainingService.envC1 TrainingService.reqC1)
    TrainingService.stC4 hrun (by decide)
    (by
      refine ⟨?_, ?_, ?_, ?_, ?_, ?_⟩ <;> intro m hm <;>
        simp [TrainingService.envC1] at hm)).1

namespace ValidationService

/-- The progress values a validation act list writes to the registry record
(`_update_job_status` writes and the completion block's `progress = 100.0`). -/
def valProgressWrites (acts : List ValAct) : List ℚ :=
  acts.filterMap fun a =>
    match a with
    | .updateStatus _ p => some p
    | .complete _ => some (100 : ℚ)
    | _ => none

theorem valProgressWrites_workerActs (acts : List ValAct) :
    valProgressWrites (valWorkerActs acts) = valProgressWrites acts := by
  induction acts with
  | nil => rfl
  | cons a l ih =>
    cases a <;>
      simp_all [valWorkerActs, valProgressWrites, ValAct.isCancel, List.filter_cons]

/-- The progress values of a full validation worker trace form a prefix of the
checkpoint sequence `10, 20, 30, 80, 100`. -/
theorem valProgressWrites_trace_prefix (env : ValEnv) (req : ValidationRequest)
    (jid : String) (now₀ : ℕ) :
    valProgressWrites (runValidationActs env req jid now₀) <+:
      ([10, 20, 30, 80, 100] : List ℚ) := by
  unfold runValidationActs valProgressWrites
  cases env.datasetExists <;> cases env.readError <;> cases env.modelExists <;>
    cases env.loadError <;> cases env.validError <;> simp <;> decide

/-- A concrete all-success validation environment. -/
def envC5 : ValEnv :=
  { datasetExists := true, modelExists := true }

/-- A concrete validation request. -/
def reqC5 : ValidationRequest :=
  { model_id := "m-1", dataset_id := "d-1" }

end ValidationService

theorem valCheckpoints_chain :
    List.Chain' (· ≤ ·) ([10, 20, 30, 80, 100] : List ℚ) := by
  simp [List.chain'_cons]
  norm_num

/-- C5: the progress values written to a job's registry record over any
(interleaved) history are monotonically non-decreasing — for training jobs
they are a prefix of the fixed checkpoints `10, 20, 30, 70, 85, 100`, and a
fully successful training run writes exactly that sequence in that order;
batch-prediction progress (5/10/20, per-chunk interpolation up to 80, 100) is
likewise non-decreasing; validation progress writes are a prefix of the
checkpoints `10, 20, 30, 80, 100` and non-decreasing. -/
theorem c5_progress_monotone :
    (∀ (env : TrainingService.TrainEnv) (req : TrainingService.TrainingRequest)
        (acts : List TrainingService.TrainAct),
      TrainingService.TrainRun env req acts →
      List.Chain' (· ≤ ·) (TrainingService.trainProgressWrites acts)) ∧
    (∀ (env : TrainingService.TrainEnv) (req : TrainingService.TrainingRequest)
        (acts : List TrainingService.TrainAct),
      TrainingService.TrainRun env req acts →
      TrainingService.trainProgressWrites acts <+:
        ([10, 20, 30, 70, 85, 100] : List ℚ)) ∧
    (∀ (env : PredictionService.PredEnv) (req : PredictionService.BatchPredictionRequest)
        (jid : String) (acts : List PredictionService.PredAct),
      PredictionService.PredRun env req jid acts →
      List.Chain' (· ≤ ·) (PredictionService.predProgressWrites acts)) ∧
    (∀ (env : TrainingService.TrainEnv) (req : TrainingService.TrainingRequest),
      env.datasetExists = true → env.readError = none → env.columnError = none →
      env.splitError = none → req.algorithm ∈ TrainingService.supportedAlgorithms →
      env.fitError = none → env.predictError = none → env.dumpError = none →
      TrainingService.trainProgressWrites (TrainingService.trainModelActs env req) =
        ([10, 20, 30, 70, 85, 100] : List ℚ)) ∧
    (∀ (env : ValidationService.ValEnv) (req : ValidationService.ValidationRequest)
        (jid : String) (now₀ : ℕ) (acts : List ValidationService.ValAct),
      ValidationService.ValRun env req jid now₀ acts →
      ValidationService.valProgressWrites acts <+:
        ([10, 20, 30, 80, 100] : List ℚ)) ∧
    (∀ (env : ValidationService.ValEnv) (req : ValidationService.ValidationRequest)
        (jid : String) (now₀ : ℕ) (acts : List ValidationService.ValAct),
      ValidationService.ValRun env req jid now₀ acts →
      List.Chain' (· ≤ ·) (ValidationService.valProgressWrites acts)) := by
  have hpfx : ∀ (env : TrainingService.TrainEnv) (req : TrainingService.TrainingRequest)
      (acts : List TrainingService.TrainAct), TrainingService.TrainRun env req acts →
      TrainingService.trainProgressWrites acts <+:
        ([10, 20, 30, 70, 85, 100] : List ℚ) := by
    intro env req acts hrun
    rw [← TrainingService.trainProgressWrites_workerActs]
    have h1 : TrainingService.trainProgressWrites (TrainingService.workerActs acts) <+:
        TrainingService.trainProgressWrites (TrainingService.trainModelActs env req) :=
      isPrefix_filterMap _ hrun
    exact h1.trans (TrainingService.trainProgressWrites_trace_prefix env req)
  have hvpfx : ∀ (env : ValidationService.ValEnv) (req : ValidationService.ValidationRequest)
      (jid : String) (now₀ : ℕ) (acts : List ValidationService.ValAct),
      ValidationService.ValRun env req jid now₀ acts →
      ValidationService.valProgressWrites acts <+:
        ([10, 20, 30, 80, 100] : List ℚ) := by
    intro env req jid now₀ acts hrun
    rw [← ValidationService.valProgressWrites_workerActs]
    have h1 : ValidationService.valProgressWrites (ValidationService.valWorkerActs acts) <+:
        ValidationService.valProgressWrites
          (ValidationService.runValidationActs env req jid now₀) :=
      isPrefix_filterMap _ hrun
    exact h1.trans (ValidationService.valProgressWrites_trace_prefix env req jid now₀)
  refine ⟨?_, hpfx, ?_, ?_, hvpfx, ?_⟩
  · intro env req acts hrun
    exact trainCheckpoints_chain.sublist (hpfx env req acts hrun).sublist
  · intro env req jid acts hrun
    rw [← PredictionService.predProgressWrites_workerActs]
    have h1 : PredictionService.predProgressWrites (PredictionService.predWorkerActs acts) <+:
        PredictionService.predProgressWrites (PredictionService.runBatchActs env req jid) :=
      isPrefix_filterMap _ hrun
    exact (PredictionService.predProgressWrites_trace_chain env req jid).sublist h1.sublist
  · intro env req hds hre hce hse halg hfe hpe hde
    rw [TrainingService.trainModelActs_success env req hds hre hce hse halg hfe hpe hde]
    rfl
  · intro env req jid now₀ acts hrun
    exact valCheckpoints_chain.sublist (hvpfx env req jid now₀ acts hrun).sublist

/-- C5 witness: a fully successful concrete training run writes exactly the
checkpoints `10, 20, 30, 70, 85, 100`, and they are non-decreasing; a concrete
all-success validation run's progress writes are a prefix of `10, 20, 30, 80,
100` and non-decreasing. -/
theorem c5_progress_monotone_witness :
    TrainingService.TrainRun TrainingService.envC1 TrainingService.reqC1
      (TrainingService.trainModelActs TrainingService.envC1 TrainingService.reqC1) ∧
    TrainingService.trainProgressWrites
      (TrainingService.trainModelActs TrainingService.envC1 TrainingService.reqC1) =
      ([10, 20, 30, 70, 85, 100] : List ℚ) ∧
    List.Chain' (· ≤ ·) (TrainingService.trainProgressWrites
      (TrainingService.trainModelActs TrainingService.envC1 TrainingService.reqC1)) ∧
    ValidationService.ValRun ValidationService.envC5 ValidationService.reqC5 "job-v" 0
      (ValidationService.runValidationActs ValidationService.envC5
        ValidationService.reqC5 "job-v" 0) ∧
    ValidationService.valProgressWrites
      (ValidationService.runValidationActs ValidationService.envC5
        ValidationService.reqC5 "job-v" 0) <+: ([10, 20, 30, 80, 100] : List ℚ) ∧
    List.Chain' (· ≤ ·) (ValidationService.valProgressWrites
      (ValidationService.runValidationActs ValidationService.envC5
        ValidationService.reqC5 "job-v" 0)) := by
  have hrun : TrainingService.TrainRun TrainingService.envC1 TrainingService.reqC1
      (TrainingService.trainModelActs TrainingService.envC1 TrainingService.reqC1) := by
    unfold TrainingService.TrainRun
    decide
  have hvrun : ValidationService.ValRun ValidationService.envC5 ValidationService.reqC5
      "job-v" 0 (ValidationService.runValidationActs ValidationService.envC5
        ValidationService.reqC5 "job-v" 0) := by
    unfold ValidationService.ValRun
    decide
  refine ⟨hrun, ?_, ?_, hvrun, ?_, ?_⟩
  · exact c5_progress_monotone.2.2.2.1 TrainingService.envC1 TrainingService.reqC1
      rfl rfl rfl rfl (by decide) rfl rfl rfl
  · exact c5_progress_monotone.1 TrainingService.envC1 TrainingService.reqC1 _ hrun
  · exact c5_progress_monotone.2.2.2.2.1 ValidationService.envC5 ValidationService.reqC5
      "job-v" 0 _ hvrun
  · exact c5_progress_monotone.2.2.2.2.2 ValidationService.envC5 ValidationService.reqC5
      "job-v" 0 _ hvrun

namespace PredictionService

/-- Number of predictions in a batch output artifact. -/
def outputSize (o : BatchOutputData) : ℕ :=
  o.predictions.length

end PredictionService

/-- C6: a batch-prediction job over an `N`-row dataset that completes
processes records in chunks of the hardcoded size 1000: the
`processed_records` checkpoints written are exactly
`min(1000, N), min(2000, N), …` (the claim's `batchCheckpoints` list), that
list ends at exactly `N`, the output artifact contains exactly `N`
predictions, and the job finishes `"completed"`. -/
theorem c6_batch_chunking (env : PredictionService.PredEnv)
    (req : PredictionService.BatchPredictionRequest) (jid : String)
    (hds : env.datasetExists = true) (hre : env.readError = none)
    (hme : env.modelExists = true) (hle : env.loadError = none)
    (hok : ∀ i, env.chunkPredError i = none) (hse : env.saveError = none)
    (hn : 0 < env.n) :
    PredictionService.predProcessedWrites
      (PredictionService.runBatchActs env req jid) = batchCheckpoints env.n ∧
    (batchCheckpoints env.n).getLast? = some env.n ∧
    ((PredictionService.runBatchPrediction env req jid).2.map
      PredictionService.outputSize) = some env.n ∧
    ((PredictionService.runPred jid req
        (PredictionService.runBatchActs env req jid)).2.map
      PredictionService.PredictionJob.status) = some "completed" := by
  refine ⟨PredictionService.predProcessedWrites_trace env req jid hds hre hme hle hok hse,
    batchCheckpoints_getLast env.n hn, ?_, ?_⟩
  · have hout : (PredictionService.runBatchPrediction env req jid).2 =
        some { predictions := (PredictionService.chunkLoop env req 0).preds
               model_id := req.model_id
               dataset_id := req.dataset_id
               confidence_scores :=
                 if (PredictionService.chunkLoop env req 0).confs.isEmpty then none
                 else some (PredictionService.chunkLoop env req 0).confs } := by
      unfold PredictionService.runBatchPrediction
      simp [hds, hre, hme, hle, PredictionService.chunkLoop_err_none env req hok 0, hse]
    rw [hout, Option.map_some']
    unfold PredictionService.outputSize
    rw [PredictionService.chunkLoop_preds_length env req hok 0]
    simp
  · obtain ⟨st, hst, hs, _⟩ :=
      PredictionService.predSuccess_completed env req jid hds hre hme hle hok hse
    rw [hst, Option.map_some', hs]

namespace PredictionService

/-- The spec's example environment: a 2500-row dataset, everything succeeds. -/
def envC6 : PredEnv :=
  { datasetExists := true, n := 2500, modelExists := true }

/-- The spec's example batch-prediction request. -/
def reqC6 : BatchPredictionRequest :=
  { model_id := "m1", dataset_id := "ds1" }

end PredictionService

/-- C6 witness: on the spec's 2500-row example the checkpoints are
1000, 2000, 2500 and the output holds exactly 2500 predictions. -/
theorem c6_batch_chunking_witness :
    (0 : ℕ) < 2500 ∧
    batchCheckpoints 2500 = [1000, 2000, 2500] ∧
    PredictionService.predProcessedWrites
      (PredictionService.runBatchActs PredictionService.envC6
        PredictionService.reqC6 "job-1") = batchCheckpoints 2500 ∧
    ((PredictionService.runBatchPrediction PredictionService.envC6
        PredictionService.reqC6 "job-1").2.map
      PredictionService.outputSize) = some 2500 := by
  have h := c6_batch_chunking PredictionService.envC6 PredictionService.reqC6 "job-1"
    rfl rfl rfl rfl (fun _ => rfl) rfl (by decide)
  exact ⟨by norm_num, by decide, h.1, h.2.2.1⟩

namespace PredictionService

end PredictionService

